import Mathlib

/-!
# Publish/subscribe message bus (src/others/msg/lv_msg.c)

A shallow embedding of the subscription registry, the dispatcher and the
owner-binding layer of lv_msg.c, followed by the properties established
about them.

Conventions of the embedding:

* pointers (`void *`, `lv_obj_t *`, function pointers, list nodes) are
  natural numbers, `0` being `NULL`;
* the static list `subs_ll` is the list of its nodes in link order, each node
  being the pair of its address and the `sub_dsc_t` stored in it;
* the global state of the translation unit (`subs_ll`,
  `LV_EVENT_MSG_RECEIVED`) and the event registrations made on objects
  through `lv_obj_add_event_cb` are passed explicitly as a `State`;
* a read through a pointer to a node that is no longer linked has no defined
  result in C; the loops report it as `Status.use_after_free`.
-/

namespace LvMsg

/-! ## Data model -/

/-- A `void *` or object pointer; `0` is `NULL`. -/
abbrev Ptr := Nat

/-- The address of a node of `subs_ll`, which is what `lv_msg_subsribe`
returns as the subscription handle; `0` is `NULL`. -/
abbrev Handle := Nat

/-- A value of type `lv_msg_subscribe_cb_t` (a function pointer); `0` is
`NULL`. -/
abbrev Cb := Nat

/-- The record stored in each list node (`sub_dsc_t`, lines 24-29). -/
structure sub_dsc_t where
  msg_id : Nat
  callback : Cb
  user_data : Ptr
  _priv_data : Ptr
  deriving DecidableEq, Repr

/-- The message view `lv_msg_t` handed to subscribers; the fields are the
ones lv_msg.c reads and writes. -/
structure lv_msg_t where
  id : Nat
  payload : Ptr
  user_data : Ptr
  _priv_data : Ptr
  deriving DecidableEq, Repr

/-- The event object `lv_event_t`, with the fields lv_msg.c assigns. -/
structure lv_event_t where
  original_target : Ptr
  current_target : Ptr
  code : Nat
  user_data : Ptr
  param : Ptr
  deleted : Nat
  stop_bubbling : Nat
  stop_processing : Nat
  deriving DecidableEq, Repr

/-- One registration made with `lv_obj_add_event_cb(obj, event_cb, filter,
user_data)`. -/
structure lv_event_dsc_t where
  obj : Ptr
  event_cb : Nat
  filter : Nat
  user_data : Ptr
  deriving DecidableEq, Repr

/-- The linked list `lv_ll_t` holding `sub_dsc_t` nodes, in link order. -/
abbrev lv_ll_t := List (Handle × sub_dsc_t)

/-- The state the functions of lv_msg.c act on: the static `subs_ll`, the
global `LV_EVENT_MSG_RECEIVED`, and the event callbacks attached to objects
(owned by the object system, extended by `lv_obj_add_event_cb`). -/
structure State where
  subs_ll : lv_ll_t
  LV_EVENT_MSG_RECEIVED : Nat
  event_dscs : List lv_event_dsc_t
  deriving DecidableEq, Repr

/-- How a loop over the list ended. -/
inductive Status where
  | ok
  | use_after_free (s : Handle)
  | out_of_fuel
  deriving DecidableEq, Repr

/-- The outcome of a function that walks the list: its value, the state it
leaves, and how the walk ended. -/
structure Res (α : Type) where
  val : α
  st : State
  status : Status
  deriving Repr

/-- One callback call made by `notify`: `callback(s, m)`. -/
structure Invocation where
  s : Handle
  callback : Cb
  m : lv_msg_t
  deriving DecidableEq, Repr

/-! ## Constants declared outside lv_msg.c -/

/-- Modelled from the spec: the macro `LV_MSG_ID_ANY` of lv_msg.h (the header
is not among the sources), the reserved wildcard topic id; it is the largest
`uint32_t`. No general theorem depends on the value. -/
def LV_MSG_ID_ANY : Nat := 4294967295

/-- Modelled from the spec: the event code `LV_EVENT_DELETE` of the object
system (lv_event.h is not among the sources), the destruction signal of an
object. No theorem depends on the value. -/
def LV_EVENT_DELETE : Nat := 33

/-- The address of the static function `obj_notify_cb`, the value stored in
`callback` by `lv_msg_subsribe_obj` and compared by `lv_msg_unsubscribe_obj`.
Any non-null value that no user callback has. -/
def obj_notify_cb_addr : Cb := 1

/-- The address of the static function `obj_delete_event_cb`, as passed to
`lv_obj_add_event_cb`. -/
def obj_delete_event_cb_addr : Nat := 2

/-! ## The list library (lv_ll.c) and the event accessors (lv_event.c) -/

/-- Modelled from the spec: `lv_ll_get_head` of lv_ll.c (not among the
sources): the first node of the ordered collection, `NULL` when it is
empty. -/
def lv_ll_get_head (ll : lv_ll_t) : Handle :=
  match ll with
  | [] => 0
  | n :: _ => n.1

/-- Modelled from the spec: `lv_ll_get_next` of lv_ll.c (not among the
sources): the node linked after `s`, `NULL` after the last one. The link is
read from node `s` itself, so there is no result (`none`) when `s` is not a
node of the list. -/
def lv_ll_get_next : lv_ll_t → Handle → Option Handle
  | [], _ => none
  | n :: rest, s => if n.1 = s then some (lv_ll_get_head rest) else lv_ll_get_next rest s

/-- Modelled from the spec: `lv_ll_remove` of lv_ll.c (not among the
sources): unlinks node `s`; the other nodes keep their order. -/
def lv_ll_remove (ll : lv_ll_t) (s : Handle) : lv_ll_t :=
  ll.filter (fun n => decide (n.1 ≠ s))

/-- Modelled from the spec: `lv_ll_ins_tail` of lv_ll.c (not among the
sources): links a new node at the tail and returns its address. `a` is what
the allocator returned for the node: `0` when it is out of memory, in which
case nothing is linked and `NULL` is returned. -/
def lv_ll_ins_tail (ll : lv_ll_t) (a : Handle) : lv_ll_t × Handle :=
  if a = 0 then (ll, 0) else (ll ++ [(a, ⟨0, 0, 0, 0⟩)], a)

/-- The read `*s` of the record stored in node `s`; `none` when `s` is not a
node of the list. -/
def lv_ll_data : lv_ll_t → Handle → Option sub_dsc_t
  | [], _ => none
  | n :: rest, s => if n.1 = s then some n.2 else lv_ll_data rest s

/-- The write `*s = f(*s)` to the record stored in node `s`. -/
def lv_ll_write (ll : lv_ll_t) (s : Handle) (f : sub_dsc_t → sub_dsc_t) : lv_ll_t :=
  ll.map (fun n => if n.1 = s then (n.1, f n.2) else n)

/-- Modelled from the spec: the macro `LV_LL_READ(list, i)` of lv_ll.h (not
among the sources), the lazy forward iteration over the nodes of the list in
insertion order, `for(i = lv_ll_get_head(list); i != NULL; i =
lv_ll_get_next(list, i))`. This is its initialisation: the cursor starts at
the head. -/
def LV_LL_READ_start (ll : lv_ll_t) : Handle := lv_ll_get_head ll

/-- Modelled from the spec: the advance step of the macro `LV_LL_READ(list,
i)` of lv_ll.h (not among the sources): once the body has run for node `i`,
the cursor moves to the node linked after `i` in the list as it is then. -/
def LV_LL_READ_advance (ll : lv_ll_t) (i : Handle) : Option Handle := lv_ll_get_next ll i

/-- Modelled from the spec: `lv_event_get_user_data` of lv_event.c (not among
the sources): the accessor of the `user_data` field of the event. -/
def lv_event_get_user_data (e : lv_event_t) : Ptr := e.user_data

/-- Modelled from the spec: `lv_event_get_param` of lv_event.c (not among the
sources): the accessor of the parameter attached to the event. -/
def lv_event_get_param (e : lv_event_t) : Ptr := e.param

/-- Modelled from the spec: `lv_event_get_target` of lv_event.c (not among
the sources): the object the event was originally sent to. -/
def lv_event_get_target (e : lv_event_t) : Ptr := e.original_target

/-- Modelled from the spec: `lv_obj_add_event_cb` of the object system (not
among the sources): attaches one more event callback to `obj`. -/
def lv_obj_add_event_cb (obj : Ptr) (event_cb : Nat) (filter : Nat) (user_data : Ptr)
    (st : State) : State :=
  { st with event_dscs := st.event_dscs ++ [⟨obj, event_cb, filter, user_data⟩] }

/-- What lies outside lv_msg.c and is called from it: the code of the user
callbacks (`user_cb cb s m` is the effect on the state of calling the function
at address `cb` with the handle `s` and the view `m`, which subscribers read
through `lv_msg_get_id`, `lv_msg_get_payload`, `lv_msg_get_user_data`), and
`lv_event_send` of the object system. -/
structure Env where
  user_cb : Cb → Handle → lv_msg_t → State → State
  lv_event_send : Ptr → lv_event_t → lv_msg_t → State → State

/-! ## lv_msg.c -/

/-- The function `lv_msg_init` (lines 57-61); `new_id` is the code returned by
`lv_event_register_id()`. -/
def lv_msg_init (new_id : Nat) (st : State) : State :=
  { st with LV_EVENT_MSG_RECEIVED := new_id, subs_ll := [] }

/-- The function `lv_msg_subsribe` (lines 63-75). `a` is the outcome of the
allocation made inside `lv_ll_ins_tail`. `LV_ASSERT_MALLOC` is taken in its
disabled form, where the function goes on to `return NULL`. -/
def lv_msg_subsribe (a : Handle) (msg_id : Nat) (cb : Cb) (user_data : Ptr)
    (st : State) : Handle × State :=
  let r := lv_ll_ins_tail st.subs_ll a
  let s := r.2
  if s = 0 then (0, st)
  else
    (s, { st with subs_ll := lv_ll_write r.1 s (fun _ => ⟨msg_id, cb, user_data, 0⟩) })

/-- The function `lv_msg_subsribe_obj` (lines 77-100). -/
def lv_msg_subsribe_obj (a : Handle) (msg_id : Nat) (obj : Ptr) (user_data : Ptr)
    (st : State) : Handle × State :=
  let r := lv_msg_subsribe a msg_id obj_notify_cb_addr user_data st
  let s := r.1
  if s = 0 then (0, r.2)
  else
    let st1 : State :=
      { r.2 with subs_ll := lv_ll_write r.2.subs_ll s (fun d => { d with _priv_data := obj }) }
    let e : lv_event_t :=
      { original_target := obj, current_target := obj, code := st1.LV_EVENT_MSG_RECEIVED,
        user_data := 0, param := 0, deleted := 0, stop_bubbling := 0, stop_processing := 0 }
    let s_first := lv_event_get_user_data e
    if s_first = 0 then
      (s, lv_obj_add_event_cb obj obj_delete_event_cb_addr LV_EVENT_DELETE s st1)
    else (s, st1)

/-- The function `lv_msg_unsubscribe` (lines 102-107): the node is unlinked
and freed. `LV_ASSERT_NULL` is taken in its disabled form. -/
def lv_msg_unsubscribe (s : Handle) (st : State) : State :=
  { st with subs_ll := lv_ll_remove st.subs_ll s }

/-- The loop of `lv_msg_unsubscribe_obj` (lines 113-123), `fuel` bounding the
number of iterations; `cnt` is a `uint32_t`. -/
def lv_msg_unsubscribe_obj_loop (msg_id : Nat) (obj : Ptr) :
    Nat → Handle → Nat → State → Res Nat
  | 0, s, cnt, st => ⟨cnt, st, if s = 0 then Status.ok else Status.out_of_fuel⟩
  | fuel + 1, s, cnt, st =>
    if s = 0 then ⟨cnt, st, Status.ok⟩
    else
      match lv_ll_get_next st.subs_ll s, lv_ll_data st.subs_ll s with
      | some s_next, some d =>
        if d.callback = obj_notify_cb_addr ∧
            (d.msg_id = LV_MSG_ID_ANY ∨ d.msg_id = msg_id) ∧
            (obj = 0 ∨ d._priv_data = obj) then
          lv_msg_unsubscribe_obj_loop msg_id obj fuel s_next ((cnt + 1) % 2 ^ 32)
            (lv_msg_unsubscribe s st)
        else
          lv_msg_unsubscribe_obj_loop msg_id obj fuel s_next cnt st
      | _, _ => ⟨cnt, st, Status.use_after_free s⟩

/-- The function `lv_msg_unsubscribe_obj` (lines 109-126). Each iteration
moves to a later node of a list that only shrinks, so the number of nodes is
enough fuel. -/
def lv_msg_unsubscribe_obj (msg_id : Nat) (obj : Ptr) (st : State) : Res Nat :=
  lv_msg_unsubscribe_obj_loop msg_id obj st.subs_ll.length (lv_ll_get_head st.subs_ll) 0 st

/-- The function `lv_event_get_msg` (lines 152-161); the warning logged in
the second branch has no effect on the state. -/
def lv_event_get_msg (st : State) (e : lv_event_t) : Ptr :=
  if e.code = st.LV_EVENT_MSG_RECEIVED then lv_event_get_param e else 0

/-- The function `lv_msg_get_id` (lines 137-140). -/
def lv_msg_get_id (m : lv_msg_t) : Nat := m.id

/-- The function `lv_msg_get_payload` (lines 142-145). -/
def lv_msg_get_payload (m : lv_msg_t) : Ptr := m.payload

/-- The function `lv_msg_get_user_data` (lines 147-150). -/
def lv_msg_get_user_data (m : lv_msg_t) : Ptr := m.user_data

/-- The static function `obj_notify_cb` (lines 179-194). -/
def obj_notify_cb (env : Env) (_s : Handle) (m : lv_msg_t) (st : State) : State :=
  let e : lv_event_t :=
    { original_target := 0, current_target := 0, code := st.LV_EVENT_MSG_RECEIVED,
      user_data := 0, param := 0, deleted := 0, stop_bubbling := 0, stop_processing := 0 }
  env.lv_event_send m._priv_data e m st

/-- The call `s->callback(s, m)` through the function pointer stored in the
record: `obj_notify_cb` when the pointer is its address, user code
otherwise. -/
def call (env : Env) (cb : Cb) (s : Handle) (m : lv_msg_t) (st : State) : State :=
  if cb = obj_notify_cb_addr then obj_notify_cb env s m st else env.user_cb cb s m st

/-- The loop of `notify` (lines 170-176), whose header is
`LV_LL_READ(&subs_ll, s)`. The body holds no successor captured ahead of the
callback (the loops of `lv_msg_unsubscribe_obj` and `obj_delete_event_cb` do
that by hand, in a variable `s_next`): the cursor advances from `s` once the
body has run. `fuel` bounds the number of iterations; the value is the list of
the callback calls made, in order. The view is updated in place from one
record to the next. -/
def notify_loop (env : Env) : Nat → Handle → lv_msg_t → State → Res (List Invocation)
  | 0, s, _, st => ⟨[], st, if s = 0 then Status.ok else Status.out_of_fuel⟩
  | fuel + 1, s, m, st =>
    if s = 0 then ⟨[], st, Status.ok⟩
    else
      match lv_ll_data st.subs_ll s with
      | none => ⟨[], st, Status.use_after_free s⟩
      | some d =>
        if d.msg_id = m.id ∧ d.callback ≠ 0 then
          let m1 : lv_msg_t := { m with user_data := d.user_data, _priv_data := d._priv_data }
          let st1 := call env d.callback s m1 st
          match LV_LL_READ_advance st1.subs_ll s with
          | none => ⟨[⟨s, d.callback, m1⟩], st1, Status.use_after_free s⟩
          | some s_next =>
            let r := notify_loop env fuel s_next m1 st1
            ⟨⟨s, d.callback, m1⟩ :: r.val, r.st, r.status⟩
        else
          match LV_LL_READ_advance st.subs_ll s with
          | none => ⟨[], st, Status.use_after_free s⟩
          | some s_next => notify_loop env fuel s_next m st

/-- The static function `notify` (lines 167-177). -/
def notify (env : Env) (fuel : Nat) (m : lv_msg_t) (st : State) : Res (List Invocation) :=
  notify_loop env fuel (LV_LL_READ_start st.subs_ll) m st

/-- The function `lv_msg_send` (lines 128-135). -/
def lv_msg_send (env : Env) (fuel : Nat) (msg_id : Nat) (payload : Ptr) (st : State) :
    Res (List Invocation) :=
  let m : lv_msg_t := { id := msg_id, payload := payload, user_data := 0, _priv_data := 0 }
  notify env fuel m st

/-- The loop of `obj_delete_event_cb` (lines 202-209), `fuel` bounding the
number of iterations. -/
def obj_delete_event_cb_loop (obj : Ptr) : Nat → Handle → State → Res Unit
  | 0, s, st => ⟨(), st, if s = 0 then Status.ok else Status.out_of_fuel⟩
  | fuel + 1, s, st =>
    if s = 0 then ⟨(), st, Status.ok⟩
    else
      match lv_ll_get_next st.subs_ll s, lv_ll_data st.subs_ll s with
      | some s_next, some d =>
        if d._priv_data = obj then
          obj_delete_event_cb_loop obj fuel s_next (lv_msg_unsubscribe s st)
        else
          obj_delete_event_cb_loop obj fuel s_next st
      | _, _ => ⟨(), st, Status.use_after_free s⟩

/-- The static function `obj_delete_event_cb` (lines 196-210), the sweep run
when the target of `e` is deleted. The number of nodes is enough fuel. -/
def obj_delete_event_cb (e : lv_event_t) (st : State) : Res Unit :=
  let obj := lv_event_get_target e
  obj_delete_event_cb_loop obj st.subs_ll.length (lv_ll_get_head st.subs_ll) st

/-! ## Well-formed lists -/

/-- The addresses of the nodes of the list, in link order. -/
def handles (ll : lv_ll_t) : List Handle := ll.map Prod.fst

/-- The nodes of a list have pairwise distinct, non-null addresses. -/
def WF (ll : lv_ll_t) : Prop := (handles ll).Nodup ∧ 0 ∉ handles ll

instance (ll : lv_ll_t) : Decidable (WF ll) := by
  unfold WF; infer_instance

/-! ## Specification vocabulary -/

/-- The condition under which `lv_msg_unsubscribe_obj(msg_id, obj)` removes a
record, as a predicate on the record: it is owner-bound (its callback is the
forwarding handler), its topic is the wildcard or `msg_id`, and its owner is
`obj` when an owner is given. -/
def obj_match (msg_id : Nat) (obj : Ptr) (d : sub_dsc_t) : Bool :=
  decide (d.callback = obj_notify_cb_addr ∧ (d.msg_id = LV_MSG_ID_ANY ∨ d.msg_id = msg_id) ∧
    (obj = 0 ∨ d._priv_data = obj))

/-- The states reachable from a state by running callbacks. -/
inductive Reach (env : Env) : State → State → Prop where
  | refl (st : State) : Reach env st st
  | after_cb (cb : Cb) (s : Handle) (m : lv_msg_t) (st st2 : State) :
      Reach env (call env cb s m st) st2 → Reach env st st2

/-- The callback calls a send of `(msg_id, payload)` owes to the records of
`ll`, in list order: one per record whose topic is `msg_id` and whose callback
is set, with the view filled from that record. -/
def dispatched (msg_id : Nat) (payload : Ptr) (ll : lv_ll_t) : List Invocation :=
  ll.filterMap (fun n =>
    if n.2.msg_id = msg_id ∧ n.2.callback ≠ 0 then
      some ⟨n.1, n.2.callback, ⟨msg_id, payload, n.2.user_data, n.2._priv_data⟩⟩
    else none)

/-! ## Concrete scenarios -/

/-- An environment whose user callbacks and whose `lv_event_send` leave the
state as it is. -/
def idle_env : Env := ⟨fun _ _ _ st => st, fun _ _ _ st => st⟩

/-- An environment in which the user callback at address `7` calls
`lv_msg_unsubscribe` on the handle it is given, and every other callback
leaves the state as it is. -/
def self_unsubscribing_env : Env :=
  ⟨fun cb s _ st => if cb = 7 then lv_msg_unsubscribe s st else st, fun _ _ _ st => st⟩

/-- The state after `lv_msg_init`, with `100` as the registered event code and
no event callback attached to any object. -/
def init_state : State := lv_msg_init 100 ⟨[], 0, []⟩

/-- The state after `lv_msg_subsribe(5, cb7, 201)` and then
`lv_msg_subsribe(LV_MSG_ID_ANY, cb8, 202)`, the nodes being allocated at `10`
and `11`. -/
def topic5_then_wildcard : State :=
  (lv_msg_subsribe 11 LV_MSG_ID_ANY 8 202 (lv_msg_subsribe 10 5 7 201 init_state).2).2

/-- The state after `lv_msg_subsribe(5, cb7, 201)` and then
`lv_msg_subsribe(5, cb8, 202)`, the nodes being allocated at `10` and `11`. -/
def two_topic5 : State :=
  (lv_msg_subsribe 11 5 8 202 (lv_msg_subsribe 10 5 7 201 init_state).2).2

/-- The state after `lv_msg_subsribe_obj(7, O, D)` with `O = 40`, `D = 201`,
the node being allocated at `10`. -/
def owner40_topic7 : State := (lv_msg_subsribe_obj 10 7 40 201 init_state).2

/-- The event delivered to the object `obj` when it is deleted. -/
def delete_event (obj : Ptr) : lv_event_t :=
  { original_target := obj, current_target := obj, code := LV_EVENT_DELETE,
    user_data := 0, param := 0, deleted := 0, stop_bubbling := 0, stop_processing := 0 }

/-- The state after `lv_msg_subsribe(5, cb7, 201)`, `lv_msg_subsribe_obj(3,
O1, 0)`, `lv_msg_subsribe_obj(4, O2, 0)` and `lv_msg_subsribe_obj(6, O1, 0)`
with `O1 = 40`, `O2 = 41`, the nodes being allocated at `10` to `13`. -/
def mixed_records : State :=
  (lv_msg_subsribe_obj 13 6 40 0 (lv_msg_subsribe_obj 12 4 41 0
    (lv_msg_subsribe_obj 11 3 40 0 (lv_msg_subsribe 10 5 7 201 init_state).2).2).2).2

/-- The state after `lv_msg_subsribe_obj(7, O, 201)` and then
`lv_msg_subsribe_obj(8, O, 202)` on the same object `O = 40`, the nodes being
allocated at `10` and `11`. -/
def owner40_twice : State :=
  (lv_msg_subsribe_obj 11 8 40 202 (lv_msg_subsribe_obj 10 7 40 201 init_state).2).2

/-- The state after `lv_msg_subsribe_obj(3, O1, 0)`, `lv_msg_subsribe_obj(4,
O1, 0)` and `lv_msg_subsribe_obj(3, O2, 0)` with `O1 = 40`, `O2 = 41`, the
nodes being allocated at `10`, `11` and `12`. -/
def three_owner_records : State :=
  (lv_msg_subsribe_obj 12 3 41 0
    (lv_msg_subsribe_obj 11 4 40 0 (lv_msg_subsribe_obj 10 3 40 0 init_state).2).2).2

/-- The owner-destroyed hooks attached to `obj`: the registrations of
`obj_delete_event_cb` for `LV_EVENT_DELETE` on it. -/
def delete_hooks (obj : Ptr) (st : State) : List lv_event_dsc_t :=
  st.event_dscs.filter (fun r =>
    decide (r.obj = obj ∧ r.event_cb = obj_delete_event_cb_addr ∧ r.filter = LV_EVENT_DELETE))

/-- A call of the subscription interface. The first argument of the two
subscribe calls is what the allocator returns for the new node. -/
inductive Op where
  | subsribe (a : Handle) (msg_id : Nat) (cb : Cb) (user_data : Ptr)
  | subsribe_obj (a : Handle) (msg_id : Nat) (obj : Ptr) (user_data : Ptr)
  | unsubscribe (s : Handle)
  deriving DecidableEq, Repr

/-- A state together with the number of subscribe calls that returned a
non-null handle and the number of `lv_msg_unsubscribe` calls so far. -/
structure Tally where
  st : State
  inserts : Nat
  removes : Nat
  deriving DecidableEq, Repr

/-- Running one call and counting it. -/
def Op.step (t : Tally) : Op → Tally
  | Op.subsribe a msg_id cb user_data =>
    let r := lv_msg_subsribe a msg_id cb user_data t.st
    ⟨r.2, if r.1 = 0 then t.inserts else t.inserts + 1, t.removes⟩
  | Op.subsribe_obj a msg_id obj user_data =>
    let r := lv_msg_subsribe_obj a msg_id obj user_data t.st
    ⟨r.2, if r.1 = 0 then t.inserts else t.inserts + 1, t.removes⟩
  | Op.unsubscribe s => ⟨lv_msg_unsubscribe s t.st, t.inserts, t.removes + 1⟩

/-- Running a sequence of calls, first to last. -/
def run_ops (t : Tally) : List Op → Tally
  | [] => t
  | op :: ops => run_ops (op.step t) ops

/-- A call respects the contracts in a state: the allocator hands out `NULL`
or an address that is not the address of a linked node, and
`lv_msg_unsubscribe` is given the handle of a linked node. -/
def Op.admissible (st : State) : Op → Bool
  | Op.subsribe a _ _ _ => decide (a = 0 ∨ a ∉ handles st.subs_ll)
  | Op.subsribe_obj a _ _ _ => decide (a = 0 ∨ a ∉ handles st.subs_ll)
  | Op.unsubscribe s => decide (s ∈ handles st.subs_ll)

/-- Every call of the sequence respects the contracts in the state it is made
in. -/
def admissible (t : Tally) : List Op → Bool
  | [] => true
  | op :: ops => op.admissible t.st && admissible (op.step t) ops

/-! ## The forwarding of a message to its owner -/

/-- The event `e` that `obj_notify_cb` builds on its stack (lines 182-191). -/
def obj_notify_cb_event (st : State) : lv_event_t :=
  { original_target := 0, current_target := 0, code := st.LV_EVENT_MSG_RECEIVED,
    user_data := 0, param := 0, deleted := 0, stop_bubbling := 0, stop_processing := 0 }

/-- Modelled from the spec: `lv_event_send(obj, e, param)` of the object
system (not among the sources), the notification channel of an owner, its
entry point to receive a labeled event with an attached payload. The value is
who receives the event and the event as the handlers of the receiver get it:
the object `obj`, and `e` with `param` attached as its parameter. -/
def lv_event_send_received (obj : Ptr) (e : lv_event_t) (param : Ptr) : Ptr × lv_event_t :=
  (obj, { e with param := param })

/-- The call `lv_event_send(m->_priv_data, &e, m)` of `obj_notify_cb` (line
193) for a view stored at address `pm` and holding `m`: who receives which
event. -/
def obj_notify_cb_forwards (st : State) (pm : Ptr) (m : lv_msg_t) : Ptr × lv_event_t :=
  lv_event_send_received m._priv_data (obj_notify_cb_event st) pm

/-! ## The invariant of the data model -/

/-- A record is plain (no owner) or owner-bound (an owner, and the forwarding
handler `obj_notify_cb` as callback). -/
def record_ok (d : sub_dsc_t) : Prop :=
  d._priv_data = 0 ∨ (d._priv_data ≠ 0 ∧ d.callback = obj_notify_cb_addr)

instance (d : sub_dsc_t) : Decidable (record_ok d) := by
  unfold record_ok; infer_instance

/-- The list is well formed and each of its records is plain or
owner-bound. -/
def registry_ok (st : State) : Prop :=
  WF st.subs_ll ∧ ∀ n ∈ st.subs_ll, record_ok n.2

/-- The states reached from `lv_msg_init` through the public operations, the
allocator handing out `NULL` or an address not in use and `lv_msg_unsubscribe`
being given the handle of a linked node. -/
inductive Reachable (env : Env) : State → Prop where
  | init (new_id : Nat) (st0 : State) : Reachable env (lv_msg_init new_id st0)
  | subsribe (a : Handle) (msg_id : Nat) (cb : Cb) (user_data : Ptr) (st : State) :
      Reachable env st → (a = 0 ∨ a ∉ handles st.subs_ll) →
      Reachable env (lv_msg_subsribe a msg_id cb user_data st).2
  | subsribe_obj (a : Handle) (msg_id : Nat) (obj : Ptr) (user_data : Ptr) (st : State) :
      Reachable env st → (a = 0 ∨ a ∉ handles st.subs_ll) →
      Reachable env (lv_msg_subsribe_obj a msg_id obj user_data st).2
  | unsubscribe (s : Handle) (st : State) :
      Reachable env st → s ∈ handles st.subs_ll → Reachable env (lv_msg_unsubscribe s st)
  | unsubscribe_obj (msg_id : Nat) (obj : Ptr) (st : State) :
      Reachable env st → Reachable env (lv_msg_unsubscribe_obj msg_id obj st).st
  | sweep (e : lv_event_t) (st : State) :
      Reachable env st → Reachable env (obj_delete_event_cb e st).st
  | send (fuel msg_id : Nat) (payload : Ptr) (st : State) :
      Reachable env st → Reachable env (lv_msg_send env fuel msg_id payload st).st

/-- The state after `lv_msg_subsribe_obj(LV_MSG_ID_ANY, O, 0)` and then
`lv_msg_subsribe_obj(3, O, 0)` with `O = 40`, the nodes being allocated at
`10` and `11`. -/
def owner40_wildcard_and_topic3 : State :=
  (lv_msg_subsribe_obj 11 3 40 0 (lv_msg_subsribe_obj 10 LV_MSG_ID_ANY 40 0 init_state).2).2

/-- The state after `lv_msg_subsribe(5, NULL, 201)` and then
`lv_msg_subsribe(5, cb8, 202)`, the nodes being allocated at `10` and `11`. -/
def null_callback_then_topic5 : State :=
  (lv_msg_subsribe 11 5 8 202 (lv_msg_subsribe 10 5 0 201 init_state).2).2

/-! ## Lemmas on the list library -/

theorem handles_append (l1 l2 : lv_ll_t) : handles (l1 ++ l2) = handles l1 ++ handles l2 := by
  simp [handles]

theorem handles_cons (n : Handle × sub_dsc_t) (l : lv_ll_t) :
    handles (n :: l) = n.1 :: handles l := by
  simp [handles]

theorem WF_mid {pre rest : lv_ll_t} {s : Handle} {d : sub_dsc_t}
    (h : WF (pre ++ (s, d) :: rest)) :
    s ∉ handles pre ∧ s ∉ handles rest ∧ s ≠ 0 ∧ WF (pre ++ rest) ∧
      WF ((pre ++ [(s, d)]) ++ rest) := by
  obtain ⟨hnd, h0⟩ := h
  simp only [handles_append, handles_cons, List.nodup_append, List.nodup_cons,
    List.mem_append, List.mem_cons, not_or] at hnd h0
  obtain ⟨hpre, ⟨hs, hrest⟩, hdisj⟩ := hnd
  have hsp : s ∉ handles pre := fun hm => hdisj hm (List.mem_cons_self _ _)
  refine ⟨hsp, hs, fun e => h0.2.1 e.symm, ⟨?_, ?_⟩, ?_⟩
  · rw [handles_append, List.nodup_append]
    exact ⟨hpre, hrest, fun a ha hb => hdisj ha (List.mem_cons_of_mem _ hb)⟩
  · simp only [handles_append, List.mem_append, not_or]
    exact ⟨h0.1, h0.2.2⟩
  · simp only [List.append_assoc, List.singleton_append]
    refine ⟨?_, ?_⟩
    · simp only [handles_append, handles_cons, List.nodup_append, List.nodup_cons]
      exact ⟨hpre, ⟨hs, hrest⟩, hdisj⟩
    · simp only [handles_append, handles_cons, List.mem_append, List.mem_cons, not_or]
      exact h0

theorem lv_ll_get_head_nil : lv_ll_get_head [] = 0 := rfl

theorem lv_ll_get_head_cons (n : Handle × sub_dsc_t) (l : lv_ll_t) :
    lv_ll_get_head (n :: l) = n.1 := rfl

theorem lv_ll_get_next_mid (pre rest : lv_ll_t) (s : Handle) (d : sub_dsc_t)
    (h : s ∉ handles pre) :
    lv_ll_get_next (pre ++ (s, d) :: rest) s = some (lv_ll_get_head rest) := by
  induction pre with
  | nil => simp [lv_ll_get_next]
  | cons n pre ih =>
    simp only [handles_cons, List.mem_cons, not_or] at h
    have hne : ¬ n.1 = s := fun e => h.1 e.symm
    simp [lv_ll_get_next, hne, ih h.2]

theorem lv_ll_data_mid (pre rest : lv_ll_t) (s : Handle) (d : sub_dsc_t)
    (h : s ∉ handles pre) :
    lv_ll_data (pre ++ (s, d) :: rest) s = some d := by
  induction pre with
  | nil => simp [lv_ll_data]
  | cons n pre ih =>
    simp only [handles_cons, List.mem_cons, not_or] at h
    have hne : ¬ n.1 = s := fun e => h.1 e.symm
    simp [lv_ll_data, hne, ih h.2]

theorem lv_ll_remove_not_mem (l : lv_ll_t) (s : Handle) (h : s ∉ handles l) :
    lv_ll_remove l s = l := by
  unfold lv_ll_remove
  rw [List.filter_eq_self]
  intro n hn
  have : n.1 ≠ s := fun e => h (by rw [← e]; exact List.mem_map_of_mem Prod.fst hn)
  simpa using this

theorem lv_ll_remove_mid (pre rest : lv_ll_t) (s : Handle) (d : sub_dsc_t)
    (h1 : s ∉ handles pre) (h2 : s ∉ handles rest) :
    lv_ll_remove (pre ++ (s, d) :: rest) s = pre ++ rest := by
  have e1 := lv_ll_remove_not_mem pre s h1
  have e2 := lv_ll_remove_not_mem rest s h2
  unfold lv_ll_remove at *
  rw [List.filter_append, List.filter_cons, e1, e2]
  simp

/-! ## The sweep -/

theorem obj_delete_event_cb_loop_spec (obj : Ptr) (c : Nat) (ds : List lv_event_dsc_t) :
    ∀ (rest pre : lv_ll_t) (fuel : Nat), WF (pre ++ rest) → rest.length ≤ fuel →
      obj_delete_event_cb_loop obj fuel (lv_ll_get_head rest) ⟨pre ++ rest, c, ds⟩ =
        ⟨(), ⟨pre ++ rest.filter (fun n => decide (n.2._priv_data ≠ obj)), c, ds⟩, Status.ok⟩ := by
  intro rest
  induction rest with
  | nil =>
    intro pre fuel _ _
    cases fuel <;> simp [obj_delete_event_cb_loop, lv_ll_get_head_nil]
  | cons n rest ih =>
    intro pre fuel hwf hlen
    obtain ⟨s, d⟩ := n
    obtain ⟨hsp, hsr, hs0, hwf1, hwf2⟩ := WF_mid hwf
    cases fuel with
    | zero => simp at hlen
    | succ fuel =>
      have hlen2 : rest.length ≤ fuel := by simpa using hlen
      simp only [obj_delete_event_cb_loop, lv_ll_get_head_cons, hs0, if_false,
        lv_ll_get_next_mid pre rest s d hsp, lv_ll_data_mid pre rest s d hsp]
      by_cases hd : d._priv_data = obj
      · simp only [hd, if_true, lv_msg_unsubscribe, lv_ll_remove_mid pre rest s d hsp hsr]
        rw [ih pre fuel hwf1 hlen2]
        simp [List.filter_cons, hd]
      · simp only [hd, if_false]
        have := ih (pre ++ [(s, d)]) fuel hwf2 hlen2
        simp only [List.append_assoc, List.singleton_append] at this
        rw [this]
        simp [List.filter_cons, hd]

/-! ## Removal by topic and owner -/

theorem lv_msg_unsubscribe_obj_loop_spec (msg_id : Nat) (obj : Ptr) (c : Nat)
    (ds : List lv_event_dsc_t) :
    ∀ (rest pre : lv_ll_t) (fuel cnt : Nat), WF (pre ++ rest) → rest.length ≤ fuel →
      cnt < 2 ^ 32 →
      lv_msg_unsubscribe_obj_loop msg_id obj fuel (lv_ll_get_head rest) cnt ⟨pre ++ rest, c, ds⟩ =
        ⟨(cnt + (rest.filter (fun n => obj_match msg_id obj n.2)).length) % 2 ^ 32,
          ⟨pre ++ rest.filter (fun n => !obj_match msg_id obj n.2), c, ds⟩, Status.ok⟩ := by
  intro rest
  induction rest with
  | nil =>
    intro pre fuel cnt _ _ hc
    have hc2 : cnt % 4294967296 = cnt := Nat.mod_eq_of_lt (by simpa using hc)
    cases fuel <;>
      simp [lv_msg_unsubscribe_obj_loop, lv_ll_get_head_nil, hc2]
  | cons n rest ih =>
    intro pre fuel cnt hwf hlen hc
    obtain ⟨s, d⟩ := n
    obtain ⟨hsp, hsr, hs0, hwf1, hwf2⟩ := WF_mid hwf
    cases fuel with
    | zero => simp at hlen
    | succ fuel =>
      have hlen2 : rest.length ≤ fuel := by simpa using hlen
      simp only [lv_msg_unsubscribe_obj_loop, lv_ll_get_head_cons, hs0, if_false,
        lv_ll_get_next_mid pre rest s d hsp, lv_ll_data_mid pre rest s d hsp]
      by_cases hd : d.callback = obj_notify_cb_addr ∧
          (d.msg_id = LV_MSG_ID_ANY ∨ d.msg_id = msg_id) ∧ (obj = 0 ∨ d._priv_data = obj)
      · have hm : obj_match msg_id obj d = true := by simp [obj_match, hd]
        rw [if_pos hd]
        simp only [lv_msg_unsubscribe, lv_ll_remove_mid pre rest s d hsp hsr]
        rw [ih pre fuel _ hwf1 hlen2 (Nat.mod_lt _ (by norm_num))]
        simp only [List.filter_cons, hm, if_true, List.length_cons, Bool.not_true]
        simp [Nat.add_assoc, Nat.add_comm 1]
      · have hm : obj_match msg_id obj d = false := by simp [obj_match, hd]
        rw [if_neg hd]
        have := ih (pre ++ [(s, d)]) fuel cnt hwf2 hlen2 hc
        simp only [List.append_assoc, List.singleton_append] at this
        rw [this]
        simp [List.filter_cons, hm]

/-! ## The dispatch walk -/

theorem notify_loop_frame (env : Env)
    (hfix : ∀ cb s m st, (call env cb s m st).subs_ll = st.subs_ll) :
    ∀ (rest pre : lv_ll_t) (fuel : Nat) (m : lv_msg_t) (st : State),
      st.subs_ll = pre ++ rest → WF (pre ++ rest) → rest.length ≤ fuel →
      (notify_loop env fuel (lv_ll_get_head rest) m st).val = dispatched m.id m.payload rest ∧
      (notify_loop env fuel (lv_ll_get_head rest) m st).status = Status.ok ∧
      (notify_loop env fuel (lv_ll_get_head rest) m st).st.subs_ll = pre ++ rest := by
  intro rest
  induction rest with
  | nil =>
    intro pre fuel m st hst _ _
    cases fuel <;> simp [notify_loop, lv_ll_get_head_nil, dispatched, hst]
  | cons n rest ih =>
    intro pre fuel m st hst hwf hlen
    obtain ⟨s, d⟩ := n
    obtain ⟨hsp, _, hs0, _, hwf2⟩ := WF_mid hwf
    cases fuel with
    | zero => simp at hlen
    | succ fuel =>
      have hlen2 : rest.length ≤ fuel := by simpa using hlen
      have hwf3 : WF ((pre ++ [(s, d)]) ++ rest) := hwf2
      have hsplit : pre ++ (s, d) :: rest = (pre ++ [(s, d)]) ++ rest := by simp
      simp only [notify_loop, LV_LL_READ_advance, lv_ll_get_head_cons, hs0, if_false, hst,
        lv_ll_data_mid pre rest s d hsp]
      by_cases hd : d.msg_id = m.id ∧ d.callback ≠ 0
      · rw [if_pos hd]
        have hst1 := hfix d.callback s
          { m with user_data := d.user_data, _priv_data := d._priv_data } st
        rw [hst] at hst1
        simp only [hst1, lv_ll_get_next_mid pre rest s d hsp]
        obtain ⟨h1, h2, h3⟩ := ih (pre ++ [(s, d)]) fuel
          { m with user_data := d.user_data, _priv_data := d._priv_data }
          (call env d.callback s { m with user_data := d.user_data, _priv_data := d._priv_data } st)
          (by rw [hst1, hsplit]) hwf3 hlen2
        refine ⟨?_, h2, by rw [h3, hsplit]⟩
        rw [h1]
        simp [dispatched, List.filterMap_cons, hd]
      · rw [if_neg hd]
        simp only [lv_ll_get_next_mid pre rest s d hsp]
        obtain ⟨h1, h2, h3⟩ := ih (pre ++ [(s, d)]) fuel m st (by rw [hst, hsplit]) hwf3 hlen2
        refine ⟨?_, h2, by rw [h3, hsplit]⟩
        rw [h1]
        simp [dispatched, List.filterMap_cons, hd]

theorem lv_msg_send_frame (env : Env)
    (hfix : ∀ cb s m st, (call env cb s m st).subs_ll = st.subs_ll)
    (msg_id : Nat) (payload : Ptr) (st : State) (fuel : Nat)
    (hwf : WF st.subs_ll) (hfuel : st.subs_ll.length ≤ fuel) :
    (lv_msg_send env fuel msg_id payload st).val = dispatched msg_id payload st.subs_ll ∧
    (lv_msg_send env fuel msg_id payload st).status = Status.ok ∧
    (lv_msg_send env fuel msg_id payload st).st.subs_ll = st.subs_ll := by
  have h := notify_loop_frame env hfix st.subs_ll [] fuel ⟨msg_id, payload, 0, 0⟩ st
    (by simp) (by simpa using hwf) hfuel
  simpa [lv_msg_send, notify, LV_LL_READ_start] using h

theorem notify_loop_invocation (env : Env) :
    ∀ (fuel : Nat) (s : Handle) (m : lv_msg_t) (st : State) (i : Invocation),
      i ∈ (notify_loop env fuel s m st).val →
      i.m.id = m.id ∧ i.m.payload = m.payload ∧
      ∃ st2 d, Reach env st st2 ∧ lv_ll_data st2.subs_ll i.s = some d ∧
        d.msg_id = m.id ∧ d.callback ≠ 0 ∧ i.callback = d.callback ∧
        i.m.user_data = d.user_data ∧ i.m._priv_data = d._priv_data := by
  intro fuel
  induction fuel with
  | zero => intro s m st i hi; simp [notify_loop] at hi
  | succ fuel ih =>
    intro s m st i hi
    unfold notify_loop at hi
    simp only [LV_LL_READ_advance] at hi
    by_cases hs0 : s = 0
    · simp [hs0] at hi
    · rw [if_neg hs0] at hi
      cases hdata : lv_ll_data st.subs_ll s with
      | none => simp [hdata] at hi
      | some d =>
        simp only [hdata] at hi
        by_cases hd : d.msg_id = m.id ∧ d.callback ≠ 0
        · rw [if_pos hd] at hi
          have hhead : ∀ j : Invocation,
              j = ⟨s, d.callback, { m with user_data := d.user_data, _priv_data := d._priv_data }⟩ →
              j.m.id = m.id ∧ j.m.payload = m.payload ∧
              ∃ st2 d2, Reach env st st2 ∧ lv_ll_data st2.subs_ll j.s = some d2 ∧
                d2.msg_id = m.id ∧ d2.callback ≠ 0 ∧ j.callback = d2.callback ∧
                j.m.user_data = d2.user_data ∧ j.m._priv_data = d2._priv_data := by
            intro j hj
            subst hj
            exact ⟨rfl, rfl, st, d, Reach.refl st, hdata, hd.1, hd.2, rfl, rfl, rfl⟩
          cases hnext : lv_ll_get_next
              (call env d.callback s
                { m with user_data := d.user_data, _priv_data := d._priv_data } st).subs_ll s with
          | none =>
            simp only [hnext, List.mem_singleton] at hi
            exact hhead i hi
          | some s_next =>
            simp only [hnext, List.mem_cons] at hi
            rcases hi with hi | hi
            · exact hhead i hi
            · obtain ⟨h1, h2, st2, d2, hr, h3⟩ := ih s_next _ _ i hi
              exact ⟨h1, h2, st2, d2, Reach.after_cb _ _ _ _ _ hr, h3⟩
        · rw [if_neg hd] at hi
          cases hnext : lv_ll_get_next st.subs_ll s with
          | none => simp [hnext] at hi
          | some s_next =>
            simp only [hnext] at hi
            exact ih s_next m st i hi

theorem Reach.subs_ll_eq {env : Env}
    (hfix : ∀ cb s m st, (call env cb s m st).subs_ll = st.subs_ll) {st st2 : State}
    (h : Reach env st st2) : st2.subs_ll = st.subs_ll := by
  induction h with
  | refl st => rfl
  | after_cb cb s m st st2 _ ih => rw [ih, hfix]

theorem Reach.preserves {env : Env} (P : State → Prop)
    (hP : ∀ cb s m st, P st → P (call env cb s m st)) {st st2 : State}
    (h : Reach env st st2) : P st → P st2 := by
  induction h with
  | refl st => exact id
  | after_cb cb s m st st2 _ ih => exact fun h0 => ih (hP cb s m st h0)

theorem lv_ll_data_mem {ll : lv_ll_t} {s : Handle} {d : sub_dsc_t}
    (h : lv_ll_data ll s = some d) : (s, d) ∈ ll := by
  induction ll with
  | nil => simp [lv_ll_data] at h
  | cons n ll ih =>
    unfold lv_ll_data at h
    by_cases hn : n.1 = s
    · rw [if_pos hn] at h
      have : n = (s, d) := by
        cases n; simp only [Option.some.injEq] at h; simp_all
      rw [this]; exact List.mem_cons_self _ _
    · rw [if_neg hn] at h
      exact List.mem_cons_of_mem _ (ih h)

/-! ## Subscribing and unsubscribing -/

theorem lv_ll_write_tail (ll : lv_ll_t) (a : Handle) (x : sub_dsc_t)
    (f : sub_dsc_t → sub_dsc_t) (h : a ∉ handles ll) :
    lv_ll_write (ll ++ [(a, x)]) a f = ll ++ [(a, f x)] := by
  unfold lv_ll_write
  rw [List.map_append]
  congr 1
  · conv_rhs => rw [← List.map_id ll]
    apply List.map_congr_left
    intro n hn
    have : n.1 ≠ a := fun e => h (by rw [← e]; exact List.mem_map_of_mem Prod.fst hn)
    simp [this]
  · simp

theorem lv_msg_subsribe_null (msg_id : Nat) (cb : Cb) (user_data : Ptr) (st : State) :
    lv_msg_subsribe 0 msg_id cb user_data st = (0, st) := by
  simp [lv_msg_subsribe, lv_ll_ins_tail]

theorem lv_msg_subsribe_ok (a : Handle) (msg_id : Nat) (cb : Cb) (user_data : Ptr) (st : State)
    (ha : a ≠ 0) (hfresh : a ∉ handles st.subs_ll) :
    lv_msg_subsribe a msg_id cb user_data st =
      (a, { st with subs_ll := st.subs_ll ++ [(a, ⟨msg_id, cb, user_data, 0⟩)] }) := by
  simp [lv_msg_subsribe, lv_ll_ins_tail, ha, lv_ll_write_tail _ _ _ _ hfresh]

theorem lv_msg_subsribe_obj_null (msg_id : Nat) (obj : Ptr) (user_data : Ptr) (st : State) :
    lv_msg_subsribe_obj 0 msg_id obj user_data st = (0, st) := by
  simp [lv_msg_subsribe_obj, lv_msg_subsribe_null]

theorem lv_msg_subsribe_obj_ok (a : Handle) (msg_id : Nat) (obj : Ptr) (user_data : Ptr)
    (st : State) (ha : a ≠ 0) (hfresh : a ∉ handles st.subs_ll) :
    lv_msg_subsribe_obj a msg_id obj user_data st =
      (a, { st with
        subs_ll := st.subs_ll ++ [(a, ⟨msg_id, obj_notify_cb_addr, user_data, obj⟩)],
        event_dscs := st.event_dscs ++ [⟨obj, obj_delete_event_cb_addr, LV_EVENT_DELETE, a⟩] }) := by
  simp [lv_msg_subsribe_obj, lv_msg_subsribe_ok a msg_id _ user_data st ha hfresh, ha,
    lv_ll_write_tail _ _ _ _ hfresh, lv_event_get_user_data, lv_obj_add_event_cb]

theorem lv_msg_subsribe_obj_adds_hook (a : Handle) (msg_id : Nat) (obj : Ptr) (user_data : Ptr)
    (st : State) (ha : a ≠ 0) :
    delete_hooks obj (lv_msg_subsribe_obj a msg_id obj user_data st).2 =
      delete_hooks obj st ++ [⟨obj, obj_delete_event_cb_addr, LV_EVENT_DELETE, a⟩] := by
  simp [lv_msg_subsribe_obj, lv_msg_subsribe, lv_ll_ins_tail, ha, lv_event_get_user_data,
    lv_obj_add_event_cb, delete_hooks, List.filter_append]

theorem WF_snoc (ll : lv_ll_t) (a : Handle) (x : sub_dsc_t) (hwf : WF ll) (ha : a ≠ 0)
    (hfresh : a ∉ handles ll) : WF (ll ++ [(a, x)]) := by
  obtain ⟨hnd, h0⟩ := hwf
  refine ⟨?_, ?_⟩
  · rw [handles_append, List.nodup_append]
    refine ⟨hnd, by simp [handles], ?_⟩
    intro b hb hb2
    simp only [handles, List.map_cons, List.map_nil, List.mem_singleton] at hb2
    exact hfresh (hb2 ▸ hb)
  · simp only [handles_append, List.mem_append, not_or]
    exact ⟨h0, by simpa [handles] using fun e : 0 = a => ha e.symm⟩

theorem WF_remove (ll : lv_ll_t) (s : Handle) (hwf : WF ll) : WF (lv_ll_remove ll s) := by
  obtain ⟨hnd, h0⟩ := hwf
  have hsub : (handles (lv_ll_remove ll s)).Sublist (handles ll) := by
    unfold handles lv_ll_remove
    exact List.Sublist.map _ (List.filter_sublist _)
  exact ⟨hnd.sublist hsub, fun h => h0 (hsub.subset h)⟩

theorem mem_handles_split {ll : lv_ll_t} {s : Handle} (h : s ∈ handles ll) :
    ∃ pre d rest, ll = pre ++ (s, d) :: rest := by
  unfold handles at h
  obtain ⟨n, hn, hs⟩ := List.mem_map.mp h
  obtain ⟨pre, rest, e⟩ := List.append_of_mem hn
  refine ⟨pre, n.2, rest, ?_⟩
  rw [e, ← hs]

theorem length_lv_ll_remove (ll : lv_ll_t) (s : Handle) (hwf : WF ll) (h : s ∈ handles ll) :
    (lv_ll_remove ll s).length + 1 = ll.length := by
  obtain ⟨pre, d, rest, e⟩ := mem_handles_split h
  subst e
  obtain ⟨hsp, hsr, _, _, _⟩ := WF_mid hwf
  rw [lv_ll_remove_mid pre rest s d hsp hsr]
  simp
  omega

theorem run_ops_count :
    ∀ (ops : List Op) (t : Tally), WF t.st.subs_ll → admissible t ops = true →
      WF (run_ops t ops).st.subs_ll ∧
      (run_ops t ops).st.subs_ll.length + (run_ops t ops).removes + t.inserts =
        t.st.subs_ll.length + (run_ops t ops).inserts + t.removes := by
  intro ops
  induction ops with
  | nil => intro t hwf _; exact ⟨hwf, by simp [run_ops]; omega⟩
  | cons op ops ih =>
    intro t hwf hadm
    simp only [admissible, Bool.and_eq_true] at hadm
    obtain ⟨hop, hrest⟩ := hadm
    have key : WF (op.step t).st.subs_ll ∧
        (op.step t).st.subs_ll.length + (op.step t).removes + t.inserts =
          t.st.subs_ll.length + (op.step t).inserts + t.removes := by
      cases op with
      | subsribe a msg_id cb user_data =>
        simp only [Op.admissible, decide_eq_true_eq] at hop
        by_cases ha : a = 0
        · subst ha
          simp only [Op.step, lv_msg_subsribe_null, if_true]
          exact ⟨hwf, by omega⟩
        · have hfresh : a ∉ handles t.st.subs_ll := by tauto
          simp only [Op.step, lv_msg_subsribe_ok a msg_id cb user_data t.st ha hfresh, ha,
            if_false]
          exact ⟨WF_snoc _ _ _ hwf ha hfresh, by simp; omega⟩
      | subsribe_obj a msg_id obj user_data =>
        simp only [Op.admissible, decide_eq_true_eq] at hop
        by_cases ha : a = 0
        · subst ha
          simp only [Op.step, lv_msg_subsribe_obj_null, if_true]
          exact ⟨hwf, by omega⟩
        · have hfresh : a ∉ handles t.st.subs_ll := by tauto
          simp only [Op.step, lv_msg_subsribe_obj_ok a msg_id obj user_data t.st ha hfresh, ha,
            if_false]
          exact ⟨WF_snoc _ _ _ hwf ha hfresh, by simp; omega⟩
      | unsubscribe s =>
        simp only [Op.admissible, decide_eq_true_eq] at hop
        simp only [Op.step, lv_msg_unsubscribe]
        have := length_lv_ll_remove _ s hwf hop
        exact ⟨WF_remove _ s hwf, by omega⟩
    obtain ⟨h1, h2⟩ := ih (op.step t) key.1 hrest
    refine ⟨h1, ?_⟩
    simp only [run_ops]
    omega

/-! ## Further lemmas on the walks -/

theorem WF_filter (ll : lv_ll_t) (p : Handle × sub_dsc_t → Bool) (hwf : WF ll) :
    WF (ll.filter p) := by
  obtain ⟨hnd, h0⟩ := hwf
  have hsub : (handles (ll.filter p)).Sublist (handles ll) := by
    unfold handles
    exact List.Sublist.map _ (List.filter_sublist _)
  exact ⟨hnd.sublist hsub, fun h => h0 (hsub.subset h)⟩

theorem obj_delete_event_cb_eq (e : lv_event_t) (st : State) (hwf : WF st.subs_ll) :
    obj_delete_event_cb e st =
      ⟨(), ⟨st.subs_ll.filter (fun n => decide (n.2._priv_data ≠ lv_event_get_target e)),
        st.LV_EVENT_MSG_RECEIVED, st.event_dscs⟩, Status.ok⟩ := by
  have hsweep := obj_delete_event_cb_loop_spec (lv_event_get_target e)
    st.LV_EVENT_MSG_RECEIVED st.event_dscs st.subs_ll [] st.subs_ll.length
    (by simpa using hwf) (le_refl _)
  simpa [obj_delete_event_cb] using hsweep

theorem lv_msg_unsubscribe_obj_st (msg_id : Nat) (obj : Ptr) (st : State)
    (hwf : WF st.subs_ll) :
    (lv_msg_unsubscribe_obj msg_id obj st).st =
        ⟨st.subs_ll.filter (fun n => !obj_match msg_id obj n.2), st.LV_EVENT_MSG_RECEIVED,
          st.event_dscs⟩ ∧
      (lv_msg_unsubscribe_obj msg_id obj st).status = Status.ok := by
  have hloop := lv_msg_unsubscribe_obj_loop_spec msg_id obj st.LV_EVENT_MSG_RECEIVED
    st.event_dscs st.subs_ll [] st.subs_ll.length 0 (by simpa using hwf) (le_refl _)
    (by norm_num)
  unfold lv_msg_unsubscribe_obj
  have hst : st = ⟨[] ++ st.subs_ll, st.LV_EVENT_MSG_RECEIVED, st.event_dscs⟩ := by simp
  constructor
  · have := congrArg Res.st hloop
    simpa using this
  · have := congrArg Res.status hloop
    simpa using this

theorem lv_ll_data_handles {ll : lv_ll_t} {s : Handle} {d : sub_dsc_t}
    (h : lv_ll_data ll s = some d) : s ∈ handles ll := by
  have := lv_ll_data_mem h
  exact List.mem_map.mpr ⟨(s, d), this, rfl⟩

theorem notify_loop_reach (env : Env) :
    ∀ (fuel : Nat) (s : Handle) (m : lv_msg_t) (st : State),
      Reach env st (notify_loop env fuel s m st).st := by
  intro fuel
  induction fuel with
  | zero => intro s m st; simp only [notify_loop]; exact Reach.refl st
  | succ fuel ih =>
    intro s m st
    unfold notify_loop
    simp only [LV_LL_READ_advance]
    by_cases hs0 : s = 0
    · rw [if_pos hs0]; exact Reach.refl st
    · rw [if_neg hs0]
      cases hdata : lv_ll_data st.subs_ll s with
      | none => exact Reach.refl st
      | some d =>
        simp only
        by_cases hd : d.msg_id = m.id ∧ d.callback ≠ 0
        · rw [if_pos hd]
          cases hnext : lv_ll_get_next
              (call env d.callback s
                { m with user_data := d.user_data, _priv_data := d._priv_data } st).subs_ll s with
          | none => exact Reach.after_cb _ _ _ _ _ (Reach.refl _)
          | some s_next => exact Reach.after_cb _ _ _ _ _ (ih s_next _ _)
        · rw [if_neg hd]
          cases hnext : lv_ll_get_next st.subs_ll s with
          | none => exact Reach.refl st
          | some s_next => exact ih s_next m st

theorem call_idle_env (cb : Cb) (s : Handle) (m : lv_msg_t) (st : State) :
    call idle_env cb s m st = st := by
  by_cases hc : cb = obj_notify_cb_addr <;> simp [call, obj_notify_cb, idle_env, hc]

theorem mem_dispatched {msg_id : Nat} {payload : Ptr} {ll : lv_ll_t} {i : Invocation}
    (h : i ∈ dispatched msg_id payload ll) :
    ∃ d, (i.s, d) ∈ ll ∧ d.msg_id = msg_id ∧ d.callback ≠ 0 ∧ i.callback = d.callback := by
  unfold dispatched at h
  obtain ⟨n, hn, hi⟩ := List.mem_filterMap.mp h
  by_cases hc : n.2.msg_id = msg_id ∧ n.2.callback ≠ 0
  · rw [if_pos hc] at hi
    simp only [Option.some.injEq] at hi
    subst hi
    exact ⟨n.2, hn, hc.1, hc.2, rfl⟩
  · rw [if_neg hc] at hi
    exact absurd hi (by simp)

theorem dispatched_skip_null (msg_id : Nat) (payload : Ptr) (pre rest : lv_ll_t) (s : Handle)
    (d : sub_dsc_t) (hd : d.callback = 0) :
    dispatched msg_id payload (pre ++ (s, d) :: rest) = dispatched msg_id payload (pre ++ rest) := by
  simp [dispatched, List.filterMap_append, List.filterMap_cons, hd]

theorem registry_ok_of_reach {env : Env}
    (hcb : ∀ cb s m st, registry_ok st → registry_ok (call env cb s m st)) {st st2 : State}
    (h : Reach env st st2) (hok : registry_ok st) : registry_ok st2 :=
  Reach.preserves registry_ok hcb h hok

theorem registry_ok_filter (st : State) (p : Handle × sub_dsc_t → Bool) (c : Nat)
    (ds : List lv_event_dsc_t) (hok : registry_ok st) :
    registry_ok ⟨st.subs_ll.filter p, c, ds⟩ :=
  ⟨WF_filter _ _ hok.1, fun n hn => hok.2 n (List.mem_filter.mp hn).1⟩

theorem registry_ok_of_reachable {env : Env}
    (hcb : ∀ cb s m st, registry_ok st → registry_ok (call env cb s m st)) {st : State}
    (h : Reachable env st) : registry_ok st := by
  induction h with
  | init new_id st0 => exact ⟨by simp [lv_msg_init, WF, handles], by simp [lv_msg_init]⟩
  | subsribe a msg_id cb user_data st _ ha ih =>
    by_cases h0 : a = 0
    · subst h0; rw [lv_msg_subsribe_null]; exact ih
    · have hfresh : a ∉ handles st.subs_ll := by tauto
      rw [lv_msg_subsribe_ok a msg_id cb user_data st h0 hfresh]
      refine ⟨WF_snoc _ _ _ ih.1 h0 hfresh, ?_⟩
      intro n hn
      rcases List.mem_append.mp hn with hn | hn
      · exact ih.2 n hn
      · simp only [List.mem_singleton] at hn
        subst hn
        exact Or.inl rfl
  | subsribe_obj a msg_id obj user_data st _ ha ih =>
    by_cases h0 : a = 0
    · subst h0; rw [lv_msg_subsribe_obj_null]; exact ih
    · have hfresh : a ∉ handles st.subs_ll := by tauto
      rw [lv_msg_subsribe_obj_ok a msg_id obj user_data st h0 hfresh]
      refine ⟨WF_snoc _ _ _ ih.1 h0 hfresh, ?_⟩
      intro n hn
      rcases List.mem_append.mp hn with hn | hn
      · exact ih.2 n hn
      · simp only [List.mem_singleton] at hn
        subst hn
        by_cases hobj : obj = 0
        · exact Or.inl hobj
        · exact Or.inr ⟨hobj, rfl⟩
  | unsubscribe s st _ _ ih =>
    exact ⟨WF_remove _ s ih.1, fun n hn => ih.2 n (List.mem_filter.mp hn).1⟩
  | unsubscribe_obj msg_id obj st _ ih =>
    rw [(lv_msg_unsubscribe_obj_st msg_id obj st ih.1).1]
    exact registry_ok_filter st _ _ _ ih
  | sweep e st _ ih =>
    rw [obj_delete_event_cb_eq e st ih.1]
    exact registry_ok_filter st _ _ _ ih
  | send fuel msg_id payload st _ ih =>
    exact registry_ok_of_reach hcb (notify_loop_reach env fuel _ _ st) ih

/-! ## Claims -/

/-- C1 (the code at the scenario of the claim): after subscribing topic 5 and
then the wildcard `LV_MSG_ID_ANY`, `lv_msg_send(5, P)` calls the callback of
the topic-5 record only; the wildcard record is walked over without a call,
because `notify` compares `s->msg_id` with the sent id and nothing else. -/
theorem lv_msg_send_skips_wildcard_record :
    ∀ fuel : Nat, lv_msg_send idle_env (fuel + 2) 5 99 topic5_then_wildcard =
      ⟨[⟨10, 7, ⟨5, 99, 201, 0⟩⟩], topic5_then_wildcard, Status.ok⟩ := by
  intro fuel
  cases fuel <;> rfl

/-- C2: every callback call made by `lv_msg_send(msg_id, payload)` passes the
handle of a record that is in the list at the moment of the call, calls the
callback of that record, and passes a view whose id is `msg_id`, whose payload is
`payload`, and whose `user_data` and `_priv_data` are those of that very
record; when callbacks do not change the list, the record is one of the list
the send started from. -/
theorem lv_msg_send_view (env : Env) (fuel msg_id : Nat) (payload : Ptr) (st : State)
    (i : Invocation) (hi : i ∈ (lv_msg_send env fuel msg_id payload st).val) :
    i.m.id = msg_id ∧ i.m.payload = payload ∧
      ∃ st2 d, Reach env st st2 ∧ lv_ll_data st2.subs_ll i.s = some d ∧
        i.callback = d.callback ∧ i.m.user_data = d.user_data ∧
        i.m._priv_data = d._priv_data ∧
        ((∀ cb s m st1, (call env cb s m st1).subs_ll = st1.subs_ll) →
          (i.s, d) ∈ st.subs_ll) := by
  obtain ⟨h1, h2, st2, d, hr, hd, _, _, h3, h4, h5⟩ :=
    notify_loop_invocation env fuel _ _ st i hi
  refine ⟨h1, h2, st2, d, hr, hd, h3, h4, h5, fun hfix => ?_⟩
  have := lv_ll_data_mem hd
  rwa [Reach.subs_ll_eq hfix hr] at this

theorem lv_msg_send_view_witness :
    (⟨11, 8, ⟨5, 99, 202, 0⟩⟩ : Invocation) ∈ (lv_msg_send idle_env 2 5 99 two_topic5).val ∧
      (5 = 5 ∧ 99 = 99 ∧
        ∃ st2 d, Reach idle_env two_topic5 st2 ∧ lv_ll_data st2.subs_ll 11 = some d ∧
          8 = d.callback ∧ 202 = d.user_data ∧ 0 = d._priv_data ∧
          ((∀ cb s m st1, (call idle_env cb s m st1).subs_ll = st1.subs_ll) →
            (11, d) ∈ two_topic5.subs_ll)) :=
  ⟨by decide, lv_msg_send_view idle_env 2 5 99 two_topic5 ⟨11, 8, ⟨5, 99, 202, 0⟩⟩ (by decide)⟩

/-- C3 (the code at a failing input): two records on topic 5, the first of
which unsubscribes itself in its callback. After that callback has returned,
the loop of `notify` asks `lv_ll_get_next` for the successor of the record
that was just unlinked and freed: the walk ends there, in a read of freed
memory, and the second record has not been called. -/
theorem lv_msg_send_reads_next_of_unsubscribed_record :
    ∀ fuel : Nat, lv_msg_send self_unsubscribing_env (fuel + 1) 5 99 two_topic5 =
      ⟨[⟨10, 7, ⟨5, 99, 201, 0⟩⟩], ⟨[(11, ⟨5, 8, 202, 0⟩)], 100, []⟩,
        Status.use_after_free 10⟩ := by
  intro fuel
  cases fuel <;> rfl

/-- C4: once `obj_delete_event_cb` has run for the object targeted by `e`
(which it does to the end, on a well-formed list), no callback call of a later
`lv_msg_send`, whatever the topic id, is made for a record bound to that
object: the owner field passed in the view is never that object. Callbacks
may change the list during the send, as long as they do not subscribe the
deleted object again. -/
theorem lv_msg_send_after_obj_delete (env : Env) (e : lv_event_t) (st : State)
    (hwf : WF st.subs_ll)
    (hpres : ∀ cb s m st1,
      (∀ n ∈ st1.subs_ll, n.2._priv_data ≠ lv_event_get_target e) →
      ∀ n ∈ (call env cb s m st1).subs_ll, n.2._priv_data ≠ lv_event_get_target e)
    (fuel msg_id : Nat) (payload : Ptr) :
    (obj_delete_event_cb e st).status = Status.ok ∧
      ∀ i ∈ (lv_msg_send env fuel msg_id payload (obj_delete_event_cb e st).st).val,
        i.m._priv_data ≠ lv_event_get_target e := by
  have hsweep := obj_delete_event_cb_loop_spec (lv_event_get_target e)
    st.LV_EVENT_MSG_RECEIVED st.event_dscs st.subs_ll [] st.subs_ll.length
    (by simpa using hwf) (le_refl _)
  have hsweep2 : obj_delete_event_cb e st =
      ⟨(), ⟨st.subs_ll.filter (fun n => decide (n.2._priv_data ≠ lv_event_get_target e)),
        st.LV_EVENT_MSG_RECEIVED, st.event_dscs⟩, Status.ok⟩ := by
    simpa [obj_delete_event_cb] using hsweep
  refine ⟨by rw [hsweep2], ?_⟩
  intro i hi
  obtain ⟨_, _, st2, d, hr, hd, _, _, _, _, h5⟩ := notify_loop_invocation env fuel _ _ _ i hi
  have hclean : ∀ n ∈ st2.subs_ll, n.2._priv_data ≠ lv_event_get_target e := by
    refine Reach.preserves
      (fun s => ∀ n ∈ s.subs_ll, n.2._priv_data ≠ lv_event_get_target e) hpres hr ?_
    intro n hn
    rw [hsweep2] at hn
    simpa using (List.mem_filter.mp hn).2
  rw [h5]
  exact hclean _ (lv_ll_data_mem hd)

theorem lv_msg_send_after_obj_delete_witness :
    WF owner40_topic7.subs_ll ∧
      ((obj_delete_event_cb (delete_event 40) owner40_topic7).status = Status.ok ∧
        ∀ i ∈ (lv_msg_send idle_env 1 7 99
            (obj_delete_event_cb (delete_event 40) owner40_topic7).st).val,
          i.m._priv_data ≠ lv_event_get_target (delete_event 40)) ∧
      (lv_msg_send idle_env 1 7 99
        (obj_delete_event_cb (delete_event 40) owner40_topic7).st).val = [] ∧
      (lv_msg_send idle_env 1 7 99 owner40_topic7).val = [⟨10, 1, ⟨7, 99, 201, 40⟩⟩] :=
  ⟨by decide,
    lv_msg_send_after_obj_delete idle_env (delete_event 40) owner40_topic7 (by decide)
      (fun cb _ _ _ h => by
        by_cases hc : cb = obj_notify_cb_addr <;>
          simpa [call, obj_notify_cb, idle_env, hc] using h) 1 7 99,
    by decide, by decide⟩

/-- C5: on a well-formed list, `obj_delete_event_cb` for the object targeted
by `e` runs to the end and leaves exactly the records whose owner field is not
that object, unchanged and in their order; the rest of the state is untouched,
the number of records removed is the number of records that were bound to
the object, and every plain record (owner field `NULL`) stays. -/
theorem obj_delete_event_cb_removes_bound (e : lv_event_t) (st : State)
    (hwf : WF st.subs_ll) :
    obj_delete_event_cb e st =
        ⟨(), { st with subs_ll :=
          st.subs_ll.filter (fun n => decide (n.2._priv_data ≠ lv_event_get_target e)) },
          Status.ok⟩ ∧
      (obj_delete_event_cb e st).st.subs_ll.length +
          (st.subs_ll.filter (fun n => decide (n.2._priv_data = lv_event_get_target e))).length =
        st.subs_ll.length ∧
      (lv_event_get_target e ≠ 0 → ∀ n ∈ st.subs_ll, n.2._priv_data = 0 →
        n ∈ (obj_delete_event_cb e st).st.subs_ll) := by
  have hsweep := obj_delete_event_cb_loop_spec (lv_event_get_target e)
    st.LV_EVENT_MSG_RECEIVED st.event_dscs st.subs_ll [] st.subs_ll.length
    (by simpa using hwf) (le_refl _)
  have hsweep2 : obj_delete_event_cb e st =
      ⟨(), ⟨st.subs_ll.filter (fun n => decide (n.2._priv_data ≠ lv_event_get_target e)),
        st.LV_EVENT_MSG_RECEIVED, st.event_dscs⟩, Status.ok⟩ := by
    simpa [obj_delete_event_cb] using hsweep
  refine ⟨hsweep2, ?_, ?_⟩
  · rw [hsweep2]
    have := @List.length_eq_length_filter_add _ st.subs_ll
      (fun n : Handle × sub_dsc_t => decide (n.2._priv_data ≠ lv_event_get_target e))
    simp only [decide_not, Bool.not_not] at this ⊢
    omega
  · intro hO n hn hplain
    rw [hsweep2]
    refine List.mem_filter.mpr ⟨hn, ?_⟩
    have : n.2._priv_data ≠ lv_event_get_target e := by
      rw [hplain]; exact fun h => hO h.symm
    simpa using this

theorem obj_delete_event_cb_removes_bound_witness :
    WF mixed_records.subs_ll ∧
      obj_delete_event_cb (delete_event 40) mixed_records =
        ⟨(), { mixed_records with
          subs_ll := [(10, ⟨5, 7, 201, 0⟩), (12, ⟨4, obj_notify_cb_addr, 0, 41⟩)] },
          Status.ok⟩ :=
  ⟨by decide, (obj_delete_event_cb_removes_bound (delete_event 40) mixed_records (by decide)).1⟩

/-- C6 (the code at a failing input): two successful `lv_msg_subsribe_obj`
calls on the same object leave two owner-destroyed hooks on it, one per call.
The test `s_first == NULL` reads, through `lv_event_get_user_data`, the
`user_data` of an event built on the spot with `user_data = NULL`, so it
always holds and `lv_obj_add_event_cb` is called every time. -/
theorem lv_msg_subsribe_obj_registers_hook_on_every_call :
    delete_hooks 40 init_state = [] ∧
      delete_hooks 40 owner40_topic7 = [⟨40, obj_delete_event_cb_addr, LV_EVENT_DELETE, 10⟩] ∧
      delete_hooks 40 owner40_twice =
        [⟨40, obj_delete_event_cb_addr, LV_EVENT_DELETE, 10⟩,
          ⟨40, obj_delete_event_cb_addr, LV_EVENT_DELETE, 11⟩] := by
  decide

/-- C7: on a well-formed list of fewer than `2 ^ 32` records,
`lv_msg_unsubscribe_obj(msg_id, obj)` runs to the end, leaves exactly the
records that are not (owner-bound, with topic `LV_MSG_ID_ANY` or `msg_id`, and
with owner `obj` when `obj` is not `NULL`), unchanged and in their order,
touches nothing else in the state, and returns the number of records it
removed; when no record qualifies it returns `0` and the state is the one it
started from. -/
theorem lv_msg_unsubscribe_obj_removes_matching (msg_id : Nat) (obj : Ptr) (st : State)
    (hwf : WF st.subs_ll) (hlen : st.subs_ll.length < 2 ^ 32) :
    lv_msg_unsubscribe_obj msg_id obj st =
        ⟨(st.subs_ll.filter (fun n => obj_match msg_id obj n.2)).length,
          { st with subs_ll := st.subs_ll.filter (fun n => !obj_match msg_id obj n.2) },
          Status.ok⟩ ∧
      (lv_msg_unsubscribe_obj msg_id obj st).val +
          (lv_msg_unsubscribe_obj msg_id obj st).st.subs_ll.length = st.subs_ll.length ∧
      ((∀ n ∈ st.subs_ll, obj_match msg_id obj n.2 = false) →
        (lv_msg_unsubscribe_obj msg_id obj st).val = 0 ∧
        (lv_msg_unsubscribe_obj msg_id obj st).st = st) := by
  have hloop := lv_msg_unsubscribe_obj_loop_spec msg_id obj st.LV_EVENT_MSG_RECEIVED
    st.event_dscs st.subs_ll [] st.subs_ll.length 0 (by simpa using hwf) (le_refl _)
    (by norm_num)
  have hcount : (st.subs_ll.filter (fun n => obj_match msg_id obj n.2)).length < 2 ^ 32 :=
    lt_of_le_of_lt (List.length_filter_le _ _) hlen
  have hres : lv_msg_unsubscribe_obj msg_id obj st =
      ⟨(st.subs_ll.filter (fun n => obj_match msg_id obj n.2)).length,
        ⟨st.subs_ll.filter (fun n => !obj_match msg_id obj n.2), st.LV_EVENT_MSG_RECEIVED,
          st.event_dscs⟩, Status.ok⟩ := by
    have hcount2 : (st.subs_ll.filter (fun n => obj_match msg_id obj n.2)).length % 4294967296 =
        (st.subs_ll.filter (fun n => obj_match msg_id obj n.2)).length :=
      Nat.mod_eq_of_lt (by simpa using hcount)
    simpa [lv_msg_unsubscribe_obj, hcount2] using hloop
  refine ⟨hres, ?_, ?_⟩
  · rw [hres]
    have := @List.length_eq_length_filter_add _ st.subs_ll
      (fun n : Handle × sub_dsc_t => obj_match msg_id obj n.2)
    simp only at this ⊢
    omega
  · intro hnone
    rw [hres]
    have h1 : st.subs_ll.filter (fun n => obj_match msg_id obj n.2) = [] := by
      rw [List.filter_eq_nil_iff]
      intro n hn
      simp [hnone n hn]
    have h2 : st.subs_ll.filter (fun n => !obj_match msg_id obj n.2) = st.subs_ll := by
      rw [List.filter_eq_self]
      intro n hn
      simp [hnone n hn]
    simp [h1, h2]

theorem lv_msg_unsubscribe_obj_removes_matching_witness :
    WF three_owner_records.subs_ll ∧ three_owner_records.subs_ll.length < 2 ^ 32 ∧
      lv_msg_unsubscribe_obj 3 0 three_owner_records =
        ⟨2, { three_owner_records with
          subs_ll := [(11, ⟨4, obj_notify_cb_addr, 0, 40⟩)] }, Status.ok⟩ :=
  ⟨by decide, by decide,
    (lv_msg_unsubscribe_obj_removes_matching 3 0 three_owner_records (by decide)
      (by decide)).1⟩

/-- C8: starting from the empty list left by `lv_msg_init`, after any
sequence of `lv_msg_subsribe`, `lv_msg_subsribe_obj` and `lv_msg_unsubscribe`
calls that respects the contracts (fresh node addresses, unsubscribe on linked
handles only), the number of records in the list is the number of subscribe
calls that returned a non-null handle minus the number of unsubscribe
calls. -/
theorem live_records_eq_inserts_minus_removes (new_id : Nat) (st0 : State) (ops : List Op)
    (hadm : admissible ⟨lv_msg_init new_id st0, 0, 0⟩ ops = true) :
    (run_ops ⟨lv_msg_init new_id st0, 0, 0⟩ ops).st.subs_ll.length =
        (run_ops ⟨lv_msg_init new_id st0, 0, 0⟩ ops).inserts -
          (run_ops ⟨lv_msg_init new_id st0, 0, 0⟩ ops).removes ∧
      (run_ops ⟨lv_msg_init new_id st0, 0, 0⟩ ops).removes ≤
        (run_ops ⟨lv_msg_init new_id st0, 0, 0⟩ ops).inserts := by
  have hwf : WF (lv_msg_init new_id st0).subs_ll := by
    simp [lv_msg_init, WF, handles]
  obtain ⟨_, h⟩ := run_ops_count ops ⟨lv_msg_init new_id st0, 0, 0⟩ hwf hadm
  have h0 : (lv_msg_init new_id st0).subs_ll.length = 0 := by simp [lv_msg_init]
  simp only [h0] at h
  omega

theorem live_records_eq_inserts_minus_removes_witness :
    admissible ⟨lv_msg_init 100 ⟨[], 0, []⟩, 0, 0⟩
        [Op.subsribe 10 5 7 201, Op.subsribe 0 6 7 0, Op.subsribe_obj 11 7 40 202,
          Op.unsubscribe 10, Op.subsribe 10 8 9 0] = true ∧
      ((run_ops ⟨lv_msg_init 100 ⟨[], 0, []⟩, 0, 0⟩
        [Op.subsribe 10 5 7 201, Op.subsribe 0 6 7 0, Op.subsribe_obj 11 7 40 202,
          Op.unsubscribe 10, Op.subsribe 10 8 9 0]).st.subs_ll.length = 3 - 1 ∧ 1 ≤ 3) :=
  ⟨by decide,
    live_records_eq_inserts_minus_removes 100 ⟨[], 0, []⟩
      [Op.subsribe 10 5 7 201, Op.subsribe 0 6 7 0, Op.subsribe_obj 11 7 40 202,
        Op.unsubscribe 10, Op.subsribe 10 8 9 0] (by decide)⟩

/-- C9: when the allocation of the node fails, `lv_msg_subsribe` and
`lv_msg_subsribe_obj` return `NULL` and leave the whole state as it was: no
record is linked and, for `lv_msg_subsribe_obj`, no event callback is attached
to the object. They return `NULL` in that case only. -/
theorem lv_msg_subsribe_alloc_failure (a : Handle) (msg_id : Nat) (cb : Cb) (obj : Ptr)
    (user_data : Ptr) (st : State) :
    lv_msg_subsribe 0 msg_id cb user_data st = (0, st) ∧
      lv_msg_subsribe_obj 0 msg_id obj user_data st = (0, st) ∧
      ((lv_msg_subsribe a msg_id cb user_data st).1 = 0 ↔ a = 0) ∧
      ((lv_msg_subsribe_obj a msg_id obj user_data st).1 = 0 ↔ a = 0) := by
  refine ⟨lv_msg_subsribe_null _ _ _ _, lv_msg_subsribe_obj_null _ _ _ _, ?_, ?_⟩
  · by_cases ha : a = 0
    · simp [ha, lv_msg_subsribe_null]
    · simp [lv_msg_subsribe, lv_ll_ins_tail, ha]
  · by_cases ha : a = 0
    · simp [ha, lv_msg_subsribe_obj_null]
    · simp [lv_msg_subsribe_obj, lv_msg_subsribe, lv_ll_ins_tail, ha, lv_event_get_user_data]

/-- C10: `lv_event_get_msg(e)` returns a non-null result only when the code
of `e` is `LV_EVENT_MSG_RECEIVED`, and the result is then the parameter
attached to `e`; for every other event code it returns `NULL`. -/
theorem lv_event_get_msg_only_for_msg_received (st : State) (e : lv_event_t) :
    (lv_event_get_msg st e ≠ 0 → e.code = st.LV_EVENT_MSG_RECEIVED) ∧
      (e.code = st.LV_EVENT_MSG_RECEIVED → lv_event_get_msg st e = lv_event_get_param e) ∧
      (e.code ≠ st.LV_EVENT_MSG_RECEIVED → lv_event_get_msg st e = 0) := by
  unfold lv_event_get_msg
  by_cases h : e.code = st.LV_EVENT_MSG_RECEIVED <;> simp [h]

theorem lv_event_get_msg_only_for_msg_received_witness :
    lv_event_get_msg init_state ⟨40, 40, 100, 0, 77, 0, 0, 0⟩ = 77 ∧
      lv_event_get_msg init_state ⟨40, 40, LV_EVENT_DELETE, 0, 77, 0, 0, 0⟩ = 0 :=
  ⟨(lv_event_get_msg_only_for_msg_received init_state ⟨40, 40, 100, 0, 77, 0, 0, 0⟩).2.1
      (by decide),
    (lv_event_get_msg_only_for_msg_received init_state
      ⟨40, 40, LV_EVENT_DELETE, 0, 77, 0, 0, 0⟩).2.2 (by decide)⟩

/-- C11: on a well-formed list, running `obj_delete_event_cb` for the same
object a second time changes nothing more (the second run returns what the
first one returned), and a run for an object to which no record is bound
leaves the state as it is. -/
theorem obj_delete_event_cb_idempotent (e : lv_event_t) (st : State) (hwf : WF st.subs_ll) :
    obj_delete_event_cb e (obj_delete_event_cb e st).st = obj_delete_event_cb e st ∧
      ((∀ n ∈ st.subs_ll, n.2._priv_data ≠ lv_event_get_target e) →
        obj_delete_event_cb e st = ⟨(), st, Status.ok⟩) := by
  have h1 := obj_delete_event_cb_eq e st hwf
  have hwf2 : WF (obj_delete_event_cb e st).st.subs_ll := by
    rw [h1]; exact WF_filter _ _ hwf
  have h2 := obj_delete_event_cb_eq e _ hwf2
  refine ⟨?_, ?_⟩
  · rw [h2, h1]
    simp [List.filter_filter]
  · intro hnone
    rw [h1]
    have : st.subs_ll.filter (fun n => decide (n.2._priv_data ≠ lv_event_get_target e)) =
        st.subs_ll := by
      rw [List.filter_eq_self]
      intro n hn
      simpa using hnone n hn
    rw [this]

theorem obj_delete_event_cb_idempotent_witness :
    WF mixed_records.subs_ll ∧
      obj_delete_event_cb (delete_event 40) (obj_delete_event_cb (delete_event 40) mixed_records).st =
        obj_delete_event_cb (delete_event 40) mixed_records ∧
      obj_delete_event_cb (delete_event 77) mixed_records = ⟨(), mixed_records, Status.ok⟩ :=
  ⟨by decide, (obj_delete_event_cb_idempotent (delete_event 40) mixed_records (by decide)).1,
    (obj_delete_event_cb_idempotent (delete_event 77) mixed_records (by decide)).2 (by decide)⟩

/-- C12: `obj_notify_cb` hands to `lv_event_send` the owner stored in the view
(`m->_priv_data`), an event whose code is `LV_EVENT_MSG_RECEIVED`, and the
pointer to the view as the parameter to attach. The event is built with an
empty parameter; with `lv_event_send` attaching the parameter it is given, the
event the owner receives carries the code `LV_EVENT_MSG_RECEIVED`, and
`lv_event_get_msg` applied to it returns the pointer to the very view that was
dispatched, hence the same id, payload and user data. -/
theorem obj_notify_cb_forwards_msg (env : Env) (st : State) (s : Handle) (pm : Ptr)
    (m : lv_msg_t) :
    obj_notify_cb env s m st = env.lv_event_send m._priv_data (obj_notify_cb_event st) m st ∧
      (obj_notify_cb_event st).param = 0 ∧
      (obj_notify_cb_forwards st pm m).1 = m._priv_data ∧
      (obj_notify_cb_forwards st pm m).2.code = st.LV_EVENT_MSG_RECEIVED ∧
      lv_event_get_msg st (obj_notify_cb_forwards st pm m).2 = pm ∧
      (∀ mem : Ptr → Option lv_msg_t, mem pm = some m →
        (mem (lv_event_get_msg st (obj_notify_cb_forwards st pm m).2)).map lv_msg_get_id =
            some m.id ∧
          (mem (lv_event_get_msg st (obj_notify_cb_forwards st pm m).2)).map
            lv_msg_get_payload = some m.payload ∧
          (mem (lv_event_get_msg st (obj_notify_cb_forwards st pm m).2)).map
            lv_msg_get_user_data = some m.user_data) := by
  have hget : lv_event_get_msg st (obj_notify_cb_forwards st pm m).2 = pm := by
    simp [lv_event_get_msg, obj_notify_cb_forwards, lv_event_send_received, obj_notify_cb_event,
      lv_event_get_param]
  refine ⟨rfl, rfl, rfl, rfl, hget, ?_⟩
  intro mem hmem
  rw [hget, hmem]
  exact ⟨rfl, rfl, rfl⟩

theorem obj_notify_cb_forwards_msg_witness :
    lv_event_get_msg init_state (obj_notify_cb_forwards init_state 500 ⟨7, 99, 201, 40⟩).2 = 500 ∧
      ((fun p : Ptr => if p = 500 then some (⟨7, 99, 201, 40⟩ : lv_msg_t) else none)
        (lv_event_get_msg init_state
          (obj_notify_cb_forwards init_state 500 ⟨7, 99, 201, 40⟩).2)).map lv_msg_get_id =
        some 7 :=
  ⟨(obj_notify_cb_forwards_msg idle_env init_state 10 500 ⟨7, 99, 201, 40⟩).2.2.2.2.1,
    ((obj_notify_cb_forwards_msg idle_env init_state 10 500 ⟨7, 99, 201, 40⟩).2.2.2.2.2
      (fun p : Ptr => if p = 500 then some (⟨7, 99, 201, 40⟩ : lv_msg_t) else none)
      (by decide)).1⟩

/-- C13: in every state reached from `lv_msg_init` through `lv_msg_subsribe`,
`lv_msg_subsribe_obj`, `lv_msg_unsubscribe`, `lv_msg_unsubscribe_obj`, the
owner sweep and `lv_msg_send`, every record is plain (no owner) or owner-bound
(an owner, and `obj_notify_cb` as callback), and the list is well formed. The
callbacks run by a send are only asked to keep that property, as they do when
they act through the same operations. -/
theorem reachable_records_plain_or_owner_bound (env : Env)
    (hcb : ∀ cb s m st, registry_ok st → registry_ok (call env cb s m st))
    (st : State) (h : Reachable env st) :
    WF st.subs_ll ∧
      ∀ n ∈ st.subs_ll,
        n.2._priv_data = 0 ∨ (n.2._priv_data ≠ 0 ∧ n.2.callback = obj_notify_cb_addr) :=
  registry_ok_of_reachable hcb h

theorem reachable_records_plain_or_owner_bound_witness :
    Reachable idle_env
        (lv_msg_send idle_env 4 3 99
          (lv_msg_subsribe_obj 11 3 40 0 (lv_msg_subsribe 10 5 7 201 (lv_msg_init 100 ⟨[], 0, []⟩)).2).2).st ∧
      (WF (lv_msg_send idle_env 4 3 99
          (lv_msg_subsribe_obj 11 3 40 0
            (lv_msg_subsribe 10 5 7 201 (lv_msg_init 100 ⟨[], 0, []⟩)).2).2).st.subs_ll ∧
        ∀ n ∈ (lv_msg_send idle_env 4 3 99
          (lv_msg_subsribe_obj 11 3 40 0
            (lv_msg_subsribe 10 5 7 201 (lv_msg_init 100 ⟨[], 0, []⟩)).2).2).st.subs_ll,
          n.2._priv_data = 0 ∨ (n.2._priv_data ≠ 0 ∧ n.2.callback = obj_notify_cb_addr)) :=
  have hr : Reachable idle_env
      (lv_msg_send idle_env 4 3 99
        (lv_msg_subsribe_obj 11 3 40 0
          (lv_msg_subsribe 10 5 7 201 (lv_msg_init 100 ⟨[], 0, []⟩)).2).2).st :=
    Reachable.send 4 3 99 _
      (Reachable.subsribe_obj 11 3 40 0 _
        (Reachable.subsribe 10 5 7 201 _ (Reachable.init 100 ⟨[], 0, []⟩) (by decide))
        (by decide))
  ⟨hr, reachable_records_plain_or_owner_bound idle_env
    (fun cb s m st hok => by rw [call_idle_env]; exact hok) _ hr⟩

/-- C14: a successful `lv_msg_subsribe(msg_id, cb, user_data)` (the allocator
returns a non-null address that is not in use) returns that address and leaves
the list with one more record, linked at the tail, holding `msg_id`, `cb`,
`user_data` and no owner; the records that were there are unchanged and in
their order, nothing else in the state changes, and the returned handle
designates the new record. -/
theorem lv_msg_subsribe_appends (a : Handle) (msg_id : Nat) (cb : Cb) (user_data : Ptr)
    (st : State) (ha : a ≠ 0) (hfresh : a ∉ handles st.subs_ll) :
    lv_msg_subsribe a msg_id cb user_data st =
        (a, { st with subs_ll := st.subs_ll ++ [(a, ⟨msg_id, cb, user_data, 0⟩)] }) ∧
      lv_ll_data (lv_msg_subsribe a msg_id cb user_data st).2.subs_ll
          (lv_msg_subsribe a msg_id cb user_data st).1 = some ⟨msg_id, cb, user_data, 0⟩ := by
  have h := lv_msg_subsribe_ok a msg_id cb user_data st ha hfresh
  refine ⟨h, ?_⟩
  rw [h]
  exact lv_ll_data_mid st.subs_ll [] a _ hfresh

theorem lv_msg_subsribe_appends_witness :
    (12 : Handle) ≠ 0 ∧ 12 ∉ handles two_topic5.subs_ll ∧
      lv_msg_subsribe 12 6 9 203 two_topic5 =
        (12, { two_topic5 with
          subs_ll := [(10, ⟨5, 7, 201, 0⟩), (11, ⟨5, 8, 202, 0⟩), (12, ⟨6, 9, 203, 0⟩)] }) :=
  ⟨by decide, by decide,
    (lv_msg_subsribe_appends 12 6 9 203 two_topic5 (by decide) (by decide)).1⟩

/-- C15: on a well-formed list, `lv_msg_unsubscribe(s)` for a linked handle
`s` removes the one record at `s`: the records before and after it stay,
unchanged and in their order, nothing else in the state changes, `s` is no
longer the address of a node of the list, and no callback call of a later
`lv_msg_send` is made with the handle `s`, as long as callbacks do not link a
node at that address again. -/
theorem lv_msg_unsubscribe_removes_one (s : Handle) (st : State) (hwf : WF st.subs_ll)
    (hlive : s ∈ handles st.subs_ll) :
    (∃ pre d rest, st.subs_ll = pre ++ (s, d) :: rest ∧
        lv_msg_unsubscribe s st = { st with subs_ll := pre ++ rest }) ∧
      s ∉ handles (lv_msg_unsubscribe s st).subs_ll ∧
      (lv_msg_unsubscribe s st).subs_ll.length + 1 = st.subs_ll.length ∧
      ∀ (env : Env) (fuel msg_id : Nat) (payload : Ptr),
        (∀ cb h m st1, s ∉ handles st1.subs_ll → s ∉ handles (call env cb h m st1).subs_ll) →
        ∀ i ∈ (lv_msg_send env fuel msg_id payload (lv_msg_unsubscribe s st)).val, i.s ≠ s := by
  obtain ⟨pre, d, rest, e⟩ := mem_handles_split hlive
  have hwf2 := hwf
  rw [e] at hwf2
  obtain ⟨hsp, hsr, _, _, _⟩ := WF_mid hwf2
  have hrem : lv_ll_remove st.subs_ll s = pre ++ rest := by
    rw [e]; exact lv_ll_remove_mid pre rest s d hsp hsr
  have hgone : s ∉ handles (lv_msg_unsubscribe s st).subs_ll := by
    simp only [lv_msg_unsubscribe, hrem, handles_append, List.mem_append, not_or]
    exact ⟨hsp, hsr⟩
  refine ⟨⟨pre, d, rest, e, by simp [lv_msg_unsubscribe, hrem]⟩, hgone, ?_, ?_⟩
  · exact length_lv_ll_remove _ s hwf hlive
  · intro env fuel msg_id payload hkeep i hi
    obtain ⟨_, _, st2, d2, hr, hd, _⟩ := notify_loop_invocation env fuel _ _ _ i hi
    have hgone2 : s ∉ handles st2.subs_ll :=
      Reach.preserves (fun x => s ∉ handles x.subs_ll) hkeep hr hgone
    intro heq
    exact hgone2 (heq ▸ lv_ll_data_handles hd)

theorem lv_msg_unsubscribe_removes_one_witness :
    WF two_topic5.subs_ll ∧ 10 ∈ handles two_topic5.subs_ll ∧
      (lv_msg_unsubscribe 10 two_topic5).subs_ll = [(11, ⟨5, 8, 202, 0⟩)] ∧
      ∀ i ∈ (lv_msg_send idle_env 2 5 99 (lv_msg_unsubscribe 10 two_topic5)).val, i.s ≠ 10 :=
  ⟨by decide, by decide, by decide,
    (lv_msg_unsubscribe_removes_one 10 two_topic5 (by decide) (by decide)).2.2.2 idle_env 2 5 99
      (fun cb h m st1 hs => by rw [call_idle_env]; exact hs)⟩

/-- C16: on a well-formed list, topic matching in `lv_msg_unsubscribe_obj` is
one-directional. An owner-bound record of `obj` whose own topic is
`LV_MSG_ID_ANY` is removed by `lv_msg_unsubscribe_obj(msg_id, obj)` whatever
`msg_id` is. With `LV_MSG_ID_ANY` as the argument, every record whose own
topic is not `LV_MSG_ID_ANY` stays, and the records removed are owner-bound
records of topic `LV_MSG_ID_ANY` whose owner is `obj` (any owner for
`NULL`). -/
theorem lv_msg_unsubscribe_obj_wildcard_one_way (msg_id : Nat) (obj : Ptr) (st : State)
    (hwf : WF st.subs_ll) :
    (∀ n ∈ st.subs_ll, n.2.callback = obj_notify_cb_addr → n.2.msg_id = LV_MSG_ID_ANY →
        n.2._priv_data = obj → n ∉ (lv_msg_unsubscribe_obj msg_id obj st).st.subs_ll) ∧
      (∀ n ∈ st.subs_ll, n.2.msg_id ≠ LV_MSG_ID_ANY →
        n ∈ (lv_msg_unsubscribe_obj LV_MSG_ID_ANY obj st).st.subs_ll) ∧
      (∀ n ∈ st.subs_ll, n ∉ (lv_msg_unsubscribe_obj LV_MSG_ID_ANY obj st).st.subs_ll →
        n.2.callback = obj_notify_cb_addr ∧ n.2.msg_id = LV_MSG_ID_ANY ∧
          (obj = 0 ∨ n.2._priv_data = obj)) := by
  rw [(lv_msg_unsubscribe_obj_st msg_id obj st hwf).1,
    (lv_msg_unsubscribe_obj_st LV_MSG_ID_ANY obj st hwf).1]
  refine ⟨?_, ?_, ?_⟩
  · intro n _ hcb hany hown hmem
    have := (List.mem_filter.mp hmem).2
    simp [obj_match, hcb, hany, hown] at this
  · intro n hn hne
    refine List.mem_filter.mpr ⟨hn, ?_⟩
    simp [obj_match, hne]
  · intro n hn hnot
    by_contra hcon
    apply hnot
    refine List.mem_filter.mpr ⟨hn, ?_⟩
    have : obj_match LV_MSG_ID_ANY obj n.2 = false := by
      simp only [obj_match, or_self, decide_eq_false_iff_not]
      exact hcon
    simp [this]

theorem lv_msg_unsubscribe_obj_wildcard_one_way_witness :
    WF owner40_wildcard_and_topic3.subs_ll ∧
      (lv_msg_unsubscribe_obj 9 40 owner40_wildcard_and_topic3).st.subs_ll =
        [(11, ⟨3, obj_notify_cb_addr, 0, 40⟩)] ∧
      (lv_msg_unsubscribe_obj LV_MSG_ID_ANY 40 owner40_wildcard_and_topic3).st.subs_ll =
        [(11, ⟨3, obj_notify_cb_addr, 0, 40⟩)] ∧
      (10, (⟨LV_MSG_ID_ANY, obj_notify_cb_addr, 0, 40⟩ : sub_dsc_t)) ∉
        (lv_msg_unsubscribe_obj 9 40 owner40_wildcard_and_topic3).st.subs_ll ∧
      (11, (⟨3, obj_notify_cb_addr, 0, 40⟩ : sub_dsc_t)) ∈
        (lv_msg_unsubscribe_obj LV_MSG_ID_ANY 40 owner40_wildcard_and_topic3).st.subs_ll :=
  ⟨by decide, by decide, by decide,
    (lv_msg_unsubscribe_obj_wildcard_one_way 9 40 owner40_wildcard_and_topic3 (by decide)).1
      (10, ⟨LV_MSG_ID_ANY, obj_notify_cb_addr, 0, 40⟩) (by decide) rfl rfl rfl,
    (lv_msg_unsubscribe_obj_wildcard_one_way 9 40 owner40_wildcard_and_topic3 (by decide)).2.1
      (11, ⟨3, obj_notify_cb_addr, 0, 40⟩) (by decide) (by decide)⟩

/-- C17: when no callback changes the list, `lv_msg_send` leaves it exactly as
it was, whatever the topic id, the payload, the start state and the fuel: same
records, same fields, same order. On a well-formed list and with the number of
records as fuel the send runs to the end. -/
theorem lv_msg_send_leaves_list (env : Env)
    (hfix : ∀ cb s m st, (call env cb s m st).subs_ll = st.subs_ll)
    (fuel msg_id : Nat) (payload : Ptr) (st : State) :
    (lv_msg_send env fuel msg_id payload st).st.subs_ll = st.subs_ll ∧
      (WF st.subs_ll → st.subs_ll.length ≤ fuel →
        (lv_msg_send env fuel msg_id payload st).status = Status.ok) := by
  refine ⟨?_, ?_⟩
  · exact Reach.subs_ll_eq hfix (notify_loop_reach env fuel _ _ st)
  · intro hwf hfuel
    exact (lv_msg_send_frame env hfix msg_id payload st fuel hwf hfuel).2.1

theorem lv_msg_send_leaves_list_witness :
    (lv_msg_send idle_env 2 5 99 two_topic5).st.subs_ll = two_topic5.subs_ll ∧
      (lv_msg_send idle_env 2 5 99 two_topic5).status = Status.ok :=
  ⟨(lv_msg_send_leaves_list idle_env
      (fun cb s m st => by rw [call_idle_env]) 2 5 99 two_topic5).1,
    (lv_msg_send_leaves_list idle_env
      (fun cb s m st => by rw [call_idle_env]) 2 5 99 two_topic5).2 (by decide) (by decide)⟩

/-- C18: no callback call of `lv_msg_send` is ever made through a null
callback pointer. With callbacks that do not change the list, on a well-formed
list holding a record at `s` whose callback is `NULL`, the send runs to the
end, makes no call with the handle `s` even when the topic of that record is
the one sent, and makes exactly the calls it makes on the list without that
record: the records after it are served as if it were not there. -/
theorem lv_msg_send_skips_null_callback (env : Env) (fuel msg_id : Nat) (payload : Ptr)
    (st : State) :
    (∀ i ∈ (lv_msg_send env fuel msg_id payload st).val, i.callback ≠ 0) ∧
      ((∀ cb s m st1, (call env cb s m st1).subs_ll = st1.subs_ll) → WF st.subs_ll →
        st.subs_ll.length ≤ fuel →
        ∀ pre s d rest, st.subs_ll = pre ++ (s, d) :: rest → d.callback = 0 →
          (lv_msg_send env fuel msg_id payload st).status = Status.ok ∧
          (∀ i ∈ (lv_msg_send env fuel msg_id payload st).val, i.s ≠ s) ∧
          (lv_msg_send env fuel msg_id payload st).val =
            (lv_msg_send env fuel msg_id payload { st with subs_ll := pre ++ rest }).val) := by
  refine ⟨?_, ?_⟩
  · intro i hi
    obtain ⟨_, _, _, d, _, _, _, hd, hcb, _⟩ := notify_loop_invocation env fuel _ _ _ i hi
    rw [hcb]; exact hd
  · intro hfix hwf hfuel pre s d rest hst hd
    obtain ⟨h1, h2, _⟩ := lv_msg_send_frame env hfix msg_id payload st fuel hwf hfuel
    have hwf2 := hwf
    rw [hst] at hwf2
    obtain ⟨hsp, hsr, _, hwf3, _⟩ := WF_mid hwf2
    have hlen : (pre ++ rest).length ≤ fuel := by
      have : (pre ++ rest).length ≤ st.subs_ll.length := by rw [hst]; simp
      omega
    obtain ⟨h3, _, _⟩ := lv_msg_send_frame env hfix msg_id payload
      { st with subs_ll := pre ++ rest } fuel hwf3 hlen
    have hval : (lv_msg_send env fuel msg_id payload st).val =
        dispatched msg_id payload (pre ++ rest) := by
      rw [h1, hst]; exact dispatched_skip_null msg_id payload pre rest s d hd
    refine ⟨h2, ?_, by rw [hval, h3]⟩
    intro i hi heq
    rw [hval] at hi
    obtain ⟨d2, hmem, _⟩ := mem_dispatched hi
    have : i.s ∈ handles (pre ++ rest) := List.mem_map.mpr ⟨(i.s, d2), hmem, rfl⟩
    rw [heq, handles_append, List.mem_append] at this
    exact this.elim hsp hsr

theorem lv_msg_send_skips_null_callback_witness :
    WF null_callback_then_topic5.subs_ll ∧
      (lv_msg_send idle_env 2 5 99 null_callback_then_topic5).status = Status.ok ∧
      (∀ i ∈ (lv_msg_send idle_env 2 5 99 null_callback_then_topic5).val, i.s ≠ 10) ∧
      (lv_msg_send idle_env 2 5 99 null_callback_then_topic5).val =
        (lv_msg_send idle_env 2 5 99
          { null_callback_then_topic5 with subs_ll := [] ++ [(11, ⟨5, 8, 202, 0⟩)] }).val ∧
      (lv_msg_send idle_env 2 5 99 null_callback_then_topic5).val = [⟨11, 8, ⟨5, 99, 202, 0⟩⟩] :=
  ⟨by decide,
    ((lv_msg_send_skips_null_callback idle_env 2 5 99 null_callback_then_topic5).2
      (fun cb s m st => by rw [call_idle_env]) (by decide) (by decide)
      [] 10 ⟨5, 0, 201, 0⟩ [(11, ⟨5, 8, 202, 0⟩)] rfl rfl).1,
    ((lv_msg_send_skips_null_callback idle_env 2 5 99 null_callback_then_topic5).2
      (fun cb s m st => by rw [call_idle_env]) (by decide) (by decide)
      [] 10 ⟨5, 0, 201, 0⟩ [(11, ⟨5, 8, 202, 0⟩)] rfl rfl).2.1,
    ((lv_msg_send_skips_null_callback idle_env 2 5 99 null_callback_then_topic5).2
      (fun cb s m st => by rw [call_idle_env]) (by decide) (by decide)
      [] 10 ⟨5, 0, 201, 0⟩ [(11, ⟨5, 8, 202, 0⟩)] rfl rfl).2.2,
    by decide⟩

end LvMsg
